import Mathlib

/-!
# AirFly-Insights — verification of the data-loading / feature pipeline

Shallow embedding of the analysis core of the repository:

* `src/config.py`       — `DTYPE_MAPPINGS` (schema registry)
* `src/data_loader.py`  — `load_data_chunked`, `load_sample_data`,
                          `optimize_dataframe_dtypes`, `get_memory_usage`
* `src/features.py`     — `create_derived_features`
* `src/utils.py`        — `calculate_delay_metrics`

Modelling conventions:

* A pandas `DataFrame` is a column-ordered list of named, dtyped columns
  (`DataFrame := List Column`); the row count is the length of the first
  column's value list (all columns of a well-formed frame have equal length).
* Cell values: Python/NumPy floats are modelled as exact rationals (`Rat`);
  `NaN`/`NaT`/missing is the dedicated cell `Cell.nan`; datetimes are
  calendar dates.  IEEE-754 rounding of `float32`/`float64` is not modelled:
  a value-preserving cast stands for the narrowing cast (no claim below
  depends on binary rounding); decimal rounding (`round(x, n)`, which *is*
  claim-relevant) is modelled exactly as round-half-to-even on rationals.
* NumPy integer narrowing (`Series.astype('int16')` on an integer source)
  silently wraps out-of-range values modulo 2^width (two's complement);
  it raises `ValueError`/`TypeError` only for missing values (cannot cast
  NaN to an integer dtype) and for non-parseable object content.  A raised
  and caught exception is modelled by `Option` (`none` = the cast raised).
* `warnings.warn` is made explicit: the optimizer returns the warning
  messages next to the resulting frame.
-/

set_option linter.unusedVariables false

namespace AirFly

/-- A single cell of a table.  `nan` stands for any missing value
(`NaN`, `NaT`, `None`); `date y m d` is a calendar date (datetime64 value). -/
inductive Cell where
  | int (i : Int)
  | float (q : Rat)
  | str (s : String)
  | date (y : Int) (m : Nat) (d : Nat)
  | nan
  deriving DecidableEq, Repr

/-- Column dtypes used by the pipeline.  `intN8` is pandas' nullable `Int8`;
`obj` is the `object` dtype; `category` is the dictionary-encoded dtype. -/
inductive Dtype where
  | int64 | int32 | int16 | int8
  | intN8
  | float64 | float32
  | category
  | datetime64
  | obj
  deriving DecidableEq, Repr

/-- A named, dtyped column of cells. -/
structure Column where
  name : String
  dtype : Dtype
  values : List Cell
  deriving DecidableEq, Repr

/-- A dataframe: ordered list of columns. -/
abbrev DataFrame := List Column

/-- Number of rows: length of the first column (0 for a frame with no
columns).  All columns of a well-formed frame have the same length. -/
def rowCount (df : DataFrame) : Nat :=
  match df with
  | [] => 0
  | c :: _ => c.values.length

/-- Well-formed frame: every column has the same number of rows and the
column labels are distinct (as for a frame produced by `read_csv`). -/
def WF (df : DataFrame) : Prop :=
  (∀ c ∈ df, c.values.length = rowCount df) ∧ (df.map Column.name).Nodup

/-- `df[name]`: first column with the given label, `none` = `KeyError`. -/
def getCol (df : DataFrame) (name : String) : Option Column :=
  df.find? (fun c => c.name = name)

/-- `df[name] = values` (with a dtype): replaces the column in place if the
label exists, otherwise appends it on the right — pandas column assignment. -/
def setCol (df : DataFrame) (name : String) (dtype : Dtype) (vals : List Cell) : DataFrame :=
  if df.any (fun c => c.name = name) then
    df.map (fun c => if c.name = name then ⟨name, dtype, vals⟩ else c)
  else
    df ++ [⟨name, dtype, vals⟩]

/-! ## Schema registry (`src/config.py`, `DTYPE_MAPPINGS`) -/

/-- `DTYPE_MAPPINGS['categorical']`. -/
def CATEGORICAL_COLS : List String :=
  ["AIRLINE", "ORIGIN_AIRPORT", "DESTINATION_AIRPORT",
   "CANCELLATION_REASON", "DAY_OF_WEEK", "TAIL_NUMBER"]

/-- `DTYPE_MAPPINGS['integer']` (target dtype per column; the dict also
holds float targets, exactly as in the source). -/
def INTEGER_MAP : List (String × Dtype) :=
  [("YEAR", .int16), ("MONTH", .int8), ("DAY", .int8), ("DAY_OF_WEEK", .int8),
   ("FLIGHT_NUMBER", .int16), ("SCHEDULED_DEPARTURE", .int16),
   ("DEPARTURE_TIME", .int16), ("DEPARTURE_DELAY", .float32),
   ("TAXI_OUT", .float32), ("WHEELS_OFF", .int16), ("SCHEDULED_TIME", .int16),
   ("ELAPSED_TIME", .float32), ("AIR_TIME", .float32), ("DISTANCE", .int16),
   ("WHEELS_ON", .int16), ("TAXI_IN", .float32), ("SCHEDULED_ARRIVAL", .int16),
   ("ARRIVAL_TIME", .int16), ("ARRIVAL_DELAY", .float32), ("DIVERTED", .int8),
   ("CANCELLED", .int8), ("CARRIER_DELAY", .float32),
   ("WEATHER_DELAY", .float32), ("NAS_DELAY", .float32),
   ("SECURITY_DELAY", .float32), ("LATE_AIRCRAFT_DELAY", .float32)]

/-- Printable dtype name, used in the warning message text. -/
def dtypeName : Dtype → String
  | .int64 => "int64" | .int32 => "int32" | .int16 => "int16" | .int8 => "int8"
  | .intN8 => "Int8"
  | .float64 => "float64" | .float32 => "float32"
  | .category => "category" | .datetime64 => "datetime64[ns]" | .obj => "object"

/-! ## Dtype optimizer (`src/data_loader.py`, `optimize_dataframe_dtypes`) -/

/-- Two's-complement wrap of an integer into `bits` bits (NumPy's silent
overflow behaviour of `astype` between integer dtypes). -/
def intWrap (bits : Nat) (i : Int) : Int :=
  (i + 2 ^ (bits - 1)) % 2 ^ bits - 2 ^ (bits - 1)

/-- Truncation of a rational toward zero (C float-to-int conversion). -/
def ratTrunc (q : Rat) : Int := Int.tdiv q.num q.den

/-- Cast of one cell to a signed integer dtype of `bits` bits.
`none` models a raised (and later caught) `ValueError`/`TypeError`:
missing values cannot be cast to an integer dtype, non-numeric object
content fails to parse, datetimes are rejected.  In-range and out-of-range
numbers alike succeed, out-of-range ones wrapping silently. -/
def castCellInt (bits : Nat) : Cell → Option Cell
  | .int i => some (.int (intWrap bits i))
  | .float q => some (.int (intWrap bits (ratTrunc q)))
  | .str s => (s.toInt?).map (fun n => .int (intWrap bits n))
  | .date _ _ _ => none
  | .nan => none

/-- Cast of one cell to a float dtype.  Missing values stay missing;
integer-parseable object content converts; other object content and
datetimes raise.  (The value itself is kept exact — see the header note on
IEEE rounding.) -/
def castCellFloat : Cell → Option Cell
  | .int i => some (.float i)
  | .float q => some (.float q)
  | .str s => (s.toInt?).map (fun n => .float n)
  | .date _ _ _ => none
  | .nan => some .nan

/-- All-or-nothing elementwise conversion (a vectorized cast: one bad cell
fails the whole column). -/
def mapOpt {α β : Type} (f : α → Option β) : List α → Option (List β)
  | [] => some []
  | a :: l =>
    match f a, mapOpt f l with
    | some b, some l2 => some (b :: l2)
    | _, _ => none

/-- `column.astype(target)`: every cell must convert, else the whole cast
raises (`none`).  Only the targets that occur in `INTEGER_MAP` matter;
a `category` target re-tags the dtype and keeps the values. -/
def astypeColumn (c : Column) (target : Dtype) : Option Column :=
  match target with
  | .int8 => (mapOpt (castCellInt 8) c.values).map (fun vs => ⟨c.name, .int8, vs⟩)
  | .int16 => (mapOpt (castCellInt 16) c.values).map (fun vs => ⟨c.name, .int16, vs⟩)
  | .int32 => (mapOpt (castCellInt 32) c.values).map (fun vs => ⟨c.name, .int32, vs⟩)
  | .int64 => (mapOpt (castCellInt 64) c.values).map (fun vs => ⟨c.name, .int64, vs⟩)
  | .float32 => (mapOpt castCellFloat c.values).map (fun vs => ⟨c.name, .float32, vs⟩)
  | .float64 => (mapOpt castCellFloat c.values).map (fun vs => ⟨c.name, .float64, vs⟩)
  | .category => some ⟨c.name, .category, c.values⟩
  | _ => none

/-- First pass of the optimizer: `df[col] = df[col].astype('category')` for
every column of the categorical list (always succeeds, keeps the values). -/
def catStep (c : Column) : Column :=
  if CATEGORICAL_COLS.contains c.name then ⟨c.name, .category, c.values⟩ else c

/-- The warning text of `warnings.warn(f"Could not convert {col} to {dtype}")`. -/
def coercionWarning (col : String) (target : Dtype) : String :=
  "Could not convert " ++ col ++ " to " ++ dtypeName target

/-- Second pass of the optimizer for one column: look the label up in the
integer mapping, try the cast, and on a raised conversion error keep the
column as it stands and record the warning. -/
def intStep (c : Column) : Column × List String :=
  match INTEGER_MAP.lookup c.name with
  | none => (c, [])
  | some target =>
    match astypeColumn c target with
    | some c2 => (c2, [])
    | none => (c, [coercionWarning c.name target])

/-- Full per-column optimization.  The source runs the categorical loop over
the whole frame and then the integer loop; since the mapping keys are
distinct and each loop iteration touches exactly the one column carrying
its label, this is the same as running both steps column by column. -/
def optimizeColumn (c : Column) : Column × List String :=
  intStep (catStep c)

/-- `optimize_dataframe_dtypes(df)`: the optimized frame together with the
recorded coercion warnings (the warning side effect made explicit). -/
def optimize_dataframe_dtypes (df : DataFrame) : DataFrame × List String :=
  (df.map (fun c => (optimizeColumn c).1),
   df.flatMap (fun c => (optimizeColumn c).2))

/-- The optimized frame alone (the Python function's return value). -/
def optimizeDf (df : DataFrame) : DataFrame :=
  (optimize_dataframe_dtypes df).1

/-! ## Decimal rounding (`round(x, n)`)

Python's `round` on floats rounds half to even.  On the exact rationals of
this model that is round-half-to-even of the scaled value. -/

/-- Round a rational to the nearest integer, ties to even. -/
def roundHalfEven (x : Rat) : Int :=
  if x - ⌊x⌋ < 1/2 then ⌊x⌋
  else if 1/2 < x - ⌊x⌋ then ⌊x⌋ + 1
  else if ⌊x⌋ % 2 = 0 then ⌊x⌋ else ⌊x⌋ + 1

/-- `round(x, digits)`. -/
def roundTo (digits : Nat) (x : Rat) : Rat :=
  (roundHalfEven (x * 10 ^ digits) : Rat) / 10 ^ digits

/-- A Python/NumPy float-valued result: either NaN or a (finite) value,
the value modelled as an exact rational. -/
inductive PyFloat where
  | nan
  | val (q : Rat)
  deriving DecidableEq, Repr

/-- `round(x, 2)` lifted to possibly-NaN results (`round(nan, 2)` is NaN). -/
def PyFloat.round2 : PyFloat → PyFloat
  | .nan => .nan
  | .val q => .val (roundTo 2 q)

/-! ## Delay metrics (`src/utils.py`, `calculate_delay_metrics`) -/

/-- Numeric reading of a cell (`none` for missing or non-numeric content). -/
def cellNum : Cell → Option Rat
  | .int i => some i
  | .float q => some q
  | _ => none

/-- `series.dropna()`. -/
def dropna (l : List Cell) : List Cell := l.filter (fun c => c ≠ Cell.nan)

/-- Insertion into a sorted list (ascending), for the median. -/
def insSorted (x : Rat) : List Rat → List Rat
  | [] => [x]
  | y :: ys => if x ≤ y then x :: y :: ys else y :: insSorted x ys

/-- Ascending sort (insertion sort). -/
def sortRats (l : List Rat) : List Rat := l.foldr insSorted []

/-- `series.min()` — NaN on an empty series. -/
def listMinPF : List Rat → PyFloat
  | [] => .nan
  | x :: xs => .val (xs.foldl min x)

/-- `series.max()` — NaN on an empty series. -/
def listMaxPF : List Rat → PyFloat
  | [] => .nan
  | x :: xs => .val (xs.foldl max x)

/-- `series.mean()` — NaN on an empty series. -/
def meanPF (l : List Rat) : PyFloat :=
  if l.length = 0 then .nan else .val (l.sum / l.length)

/-- `series.median()` — midpoint of the sorted middle; NaN on empty. -/
def medianPF (l : List Rat) : PyFloat :=
  if l.length = 0 then .nan
  else
    let s := sortRats l
    let n := l.length
    if n % 2 = 1 then .val (s.getD (n / 2) 0)
    else .val ((s.getD (n / 2 - 1) 0 + s.getD (n / 2) 0) / 2)

/-- Rational approximation of the square root (within `10 ^ (-6)` of the
exact root), standing in for the float `sqrt` inside `std`.  No claim
below depends on the numeric value of a standard deviation. -/
def ratSqrtApprox (q : Rat) : Rat :=
  if q ≤ 0 then 0
  else (Nat.sqrt (q.num.toNat * q.den * 10 ^ 12) : Rat) / ((q.den : Rat) * 10 ^ 6)

/-- `series.std()` — pandas sample standard deviation (`ddof = 1`);
NaN when fewer than two values (0/0). -/
def stdPF (l : List Rat) : PyFloat :=
  if l.length < 2 then .nan
  else
    let m := l.sum / l.length
    .val (ratSqrtApprox (((l.map (fun x => (x - m) ^ 2)).sum) / (l.length - 1)))

/-- `(bool_series).sum() / len(delays) * 100`.  The numerator is a NumPy
integer scalar, so a zero denominator is NumPy division by zero: it emits a
runtime warning and yields NaN (0/0); it does not raise
`ZeroDivisionError`. -/
def pctPF (k n : Nat) : PyFloat :=
  if n = 0 then .nan else .val ((k : Rat) / n * 100)

/-- The metrics dictionary returned by `calculate_delay_metrics`. -/
structure DelayMetrics where
  total_flights : Nat
  flights_with_delay_data : Nat
  mean_delay : PyFloat
  median_delay : PyFloat
  std_delay : PyFloat
  min_delay : PyFloat
  max_delay : PyFloat
  on_time_pct : PyFloat
  delayed_pct : PyFloat
  significantly_delayed_pct : PyFloat
  deriving DecidableEq, Repr

/-- `calculate_delay_metrics(df, delay_col)`: `none` models a raised
exception (`KeyError` for a missing column, `TypeError` for non-numeric
content under the statistics).  Every value in the dictionary passes
through `round(v, 2)`; rounding a count is the identity. -/
def calculate_delay_metrics (df : DataFrame) (delay_col : String) : Option DelayMetrics :=
  match getCol df delay_col with
  | none => none
  | some c =>
    match mapOpt cellNum (dropna c.values) with
    | none => none
    | some delays =>
      some {
        total_flights := rowCount df
        flights_with_delay_data := delays.length
        mean_delay := (meanPF delays).round2
        median_delay := (medianPF delays).round2
        std_delay := (stdPF delays).round2
        min_delay := (listMinPF delays).round2
        max_delay := (listMaxPF delays).round2
        on_time_pct := (pctPF (delays.countP (fun x => decide (x ≤ 15))) delays.length).round2
        delayed_pct := (pctPF (delays.countP (fun x => decide (15 < x))) delays.length).round2
        significantly_delayed_pct :=
          (pctPF (delays.countP (fun x => decide (60 < x))) delays.length).round2 }

/-! ## Memory report (`src/data_loader.py`, `get_memory_usage`)

`df.memory_usage(deep=True)` is environment-defined (CPython object sizes,
pandas block layout).  The byte model below mirrors a 64-bit CPython with a
`RangeIndex`: fixed-width dtypes cost their width per row, object columns
cost a pointer plus the pointee, categoricals cost one code byte per row
plus the dictionary.  The claims about this report concern only the
relation between its fields, not the absolute byte counts. -/

/-- Approximate `sys.getsizeof` of a cell's boxed Python object. -/
def pyObjBytes : Cell → Nat
  | .str s => 49 + s.length
  | .int _ => 28
  | .float _ => 24
  | .nan => 24
  | .date _ _ _ => 48

/-- Bytes per row of a fixed-width dtype. -/
def dtypeWidth : Dtype → Nat
  | .int64 => 8 | .int32 => 4 | .int16 => 2 | .int8 => 1
  | .intN8 => 2
  | .float64 => 8 | .float32 => 4
  | .datetime64 => 8
  | .category => 1
  | .obj => 8

/-- Deep memory of one column. -/
def colBytes (c : Column) : Nat :=
  match c.dtype with
  | .obj => c.values.foldl (fun a v => a + 8 + pyObjBytes v) 0
  | .category =>
      c.values.length + (dropna c.values).dedup.foldl (fun a v => a + 8 + pyObjBytes v) 0
  | d => dtypeWidth d * c.values.length

/-- Deep memory usage of a `RangeIndex`. -/
def INDEX_BYTES : Nat := 132

/-- `df.memory_usage(deep=True).sum()`. -/
def totalBytes (df : DataFrame) : Nat :=
  INDEX_BYTES + (df.map colBytes).sum

/-- The statistics dictionary returned by `get_memory_usage`. -/
structure MemStats where
  total_mb : Rat
  rows : Nat
  columns : Nat
  mb_per_row : PyFloat
  deriving DecidableEq, Repr

/-- `get_memory_usage(df)` (without the `detailed` per-column breakdown,
which only adds a sorted copy of the per-column numbers).  `total_mb` in
the dictionary is `round(total_mb, 2)` of the raw megabyte count, while
`mb_per_row` is `round(total_mb / len(df), 6)` of the *unrounded* raw
count.  A zero row count makes the per-row division a non-raising NumPy
float division by zero, modelled as NaN. -/
def get_memory_usage (df : DataFrame) : MemStats :=
  let total_mb : Rat := (totalBytes df : Rat) / 2 ^ 20
  { total_mb := roundTo 2 total_mb
    rows := rowCount df
    columns := df.length
    mb_per_row :=
      if rowCount df = 0 then .nan
      else .val (roundTo 6 (total_mb / (rowCount df : Rat))) }

/-! ## Feature deriver (`src/features.py`, `create_derived_features`) -/

def MONTH_NAMES : List String :=
  ["January", "February", "March", "April", "May", "June", "July",
   "August", "September", "October", "November", "December"]

def DAY_NAMES : List String :=
  ["Monday", "Tuesday", "Wednesday", "Thursday", "Friday", "Saturday", "Sunday"]

/-- Python `date.weekday()` (Monday = 0), by Zeller's congruence. -/
def pyWeekday (y : Int) (m d : Nat) : Nat :=
  let yy : Int := if m < 3 then y - 1 else y
  let mm : Int := if m < 3 then (m : Int) + 12 else m
  let K : Int := yy % 100
  let J : Int := (yy - K) / 100
  let h : Int := ((d : Int) + (13 * (mm + 1)) / 5 + K + K / 4 + J / 4 + 5 * J) % 7
  ((h + 5) % 7).toNat

/-- `series.dt.month` on one cell (NaT gives a missing value). -/
def monthCell : Cell → Cell
  | .date _ m _ => .int m
  | _ => .nan

/-- `series.dt.month_name()` on one cell. -/
def monthNameCell : Cell → Cell
  | .date _ m _ => .str (MONTH_NAMES.getD (m - 1) "")
  | _ => .nan

/-- `series.dt.dayofweek` on one cell (Monday = 0). -/
def dowCell : Cell → Cell
  | .date y m d => .int (pyWeekday y m d)
  | _ => .nan

/-- `series.dt.day_name()` on one cell. -/
def dayNameCell : Cell → Cell
  | .date y m d => .str (DAY_NAMES.getD (pyWeekday y m d) "")
  | _ => .nan

/-- Python `str(x)` as used in the route concatenation.  (The float and
date renderings are approximate; no claim inspects them.) -/
def pyStr : Cell → String
  | .int i => toString i
  | .float q => toString q
  | .str s => s
  | .date y m d => toString y ++ "-" ++ toString m ++ "-" ++ toString d
  | .nan => "nan"

/-- `pd.cut(x, bins=[0,18,35,50,65,120], labels=[...])` on one number.
`pd.cut` builds right-closed, left-open intervals and by default does
*not* include the lowest edge, so the bins are
`(0,18], (18,35], (35,50], (50,65], (65,120]`; anything at or below 0,
above 120, or missing falls outside all bins and becomes missing. -/
def ageBucket (x : Rat) : Cell :=
  if x ≤ 0 then .nan
  else if x ≤ 18 then .str "0-18"
  else if x ≤ 35 then .str "19-35"
  else if x ≤ 50 then .str "36-50"
  else if x ≤ 65 then .str "51-65"
  else if x ≤ 120 then .str "65+"
  else .nan

/-- `pd.cut` applied to one cell of a numeric column. -/
def cutAgeCell : Cell → Cell
  | .int i => ageBucket i
  | .float q => ageBucket q
  | _ => .nan

/-- Dtypes `pd.cut` accepts. -/
def Dtype.isNumeric : Dtype → Bool
  | .int64 | .int32 | .int16 | .int8 | .intN8 | .float64 | .float32 => true
  | _ => false

/-- The six column labels `create_derived_features` assigns. -/
def DERIVED_NAMES : List String :=
  ["MONTH", "MONTH_NAME", "DAY_OF_WEEK", "DAY_NAME", "ROUTE", "AGE_GROUP"]

/-- `create_derived_features(df)`.  `none` models a raised exception:
the `.dt` accessor on a non-datetime `DEPARTURE_DATE` column, or `pd.cut`
on a non-numeric `Age` column.  Each feature is assigned with pandas
column assignment (`setCol`): in place when the label already exists,
appended on the right otherwise. -/
def create_derived_features (df : DataFrame) : Option DataFrame :=
  let step1 : Option DataFrame :=
    match getCol df "DEPARTURE_DATE" with
    | none => some df
    | some c =>
      if c.dtype = .datetime64 then
        let d1 := setCol df "MONTH" .intN8 (c.values.map monthCell)
        let d2 := setCol d1 "MONTH_NAME" .category (c.values.map monthNameCell)
        let d3 := setCol d2 "DAY_OF_WEEK" .intN8 (c.values.map dowCell)
        some (setCol d3 "DAY_NAME" .category (c.values.map dayNameCell))
      else none
  match step1 with
  | none => none
  | some df1 =>
    let df2 :=
      match getCol df1 "Airport Name", getCol df1 "Arrival Airport" with
      | some a, some b =>
          setCol df1 "ROUTE" .category
            ((a.values.zip b.values).map (fun p => .str (pyStr p.1 ++ " to " ++ pyStr p.2)))
      | _, _ => df1
    match getCol df2 "Age" with
    | none => some df2
    | some c =>
      if c.dtype.isNumeric then
        some (setCol df2 "AGE_GROUP" .category (c.values.map cutAgeCell))
      else none

/-! ## Chunked loader (`src/data_loader.py`, `load_data_chunked`) -/

/-- `df.iloc[:n]` — first `n` rows of every column. -/
def dfTake (n : Nat) (df : DataFrame) : DataFrame :=
  df.map (fun c => ⟨c.name, c.dtype, c.values.take n⟩)

/-- All rows after the first `n`. -/
def dfDrop (n : Nat) (df : DataFrame) : DataFrame :=
  df.map (fun c => ⟨c.name, c.dtype, c.values.drop n⟩)

/-- The chunk sequence of `pd.read_csv(filepath, chunksize=cs)`:
successive slices of `cs` rows.  The fuel (initially the row count) only
drives termination; it never runs out while rows remain, since `cs ≥ 1`
removes at least one row per step. -/
def readChunksAux (cs : Nat) : Nat → DataFrame → List DataFrame
  | 0, _ => []
  | fuel + 1, df =>
    if rowCount df = 0 then []
    else dfTake cs df :: readChunksAux cs fuel (dfDrop cs df)

def readChunks (cs : Nat) (df : DataFrame) : List DataFrame :=
  readChunksAux cs (rowCount df) df

/-- `pd.concat([a, b])` for frames of the same schema: appends the rows of
`b`'s like-named column to each column of `a`.  (The dtype-merge rules of
`concat` for unequal dtypes are kept as `a`'s dtype; no claim depends on
them.) -/
def concat2 (a b : DataFrame) : DataFrame :=
  a.map (fun c => ⟨c.name, c.dtype, c.values ++ ((getCol b c.name).map Column.values).getD []⟩)

/-- `pd.concat(chunks, ignore_index=True)`: row blocks in list order.
(On an empty list pandas raises; a non-empty file always yields at least
one chunk.) -/
def dfConcat : List DataFrame → DataFrame
  | [] => []
  | [d] => d
  | d :: ds => concat2 d (dfConcat ds)

/-- Python truthiness of the `nrows` argument: `None` and `0` are falsy. -/
def truthy : Option Int → Bool
  | none => false
  | some n => n ≠ 0

/-- The loader's accumulation loop: optimize the chunk if asked, append
it, add its length to the running total, and break once
`nrows and total_rows >= nrows`. -/
def accumChunks (nrows : Option Int) (opt : Bool) : Nat → List DataFrame → List DataFrame
  | _, [] => []
  | total, ch :: rest =>
    let ch2 := if opt then optimizeDf ch else ch
    let total2 := total + rowCount ch2
    if truthy nrows && decide (nrows.getD 0 ≤ (total2 : Int)) then [ch2]
    else ch2 :: accumChunks nrows opt total2 rest

/-- `df.head(n)`: first `n` rows for `n ≥ 0`, all but the last `|n|` rows
for negative `n`. -/
def dfHead (n : Int) (df : DataFrame) : DataFrame :=
  if 0 ≤ n then dfTake n.toNat df
  else dfTake (rowCount df - (-n).toNat) df

/-- `load_data_chunked(filepath, chunksize, nrows, optimize_dtypes)` on an
already-resolved readable file (the `FileNotFoundError` branch is the
path check before any reading).  `nrows : Option Int` mirrors the Python
`Optional[int]`, including its truthiness test. -/
def load_data_chunked (file : DataFrame) (chunksize : Nat) (nrows : Option Int)
    (optimize_dtypes : Bool) : DataFrame :=
  let chunks := accumChunks nrows optimize_dtypes 0 (readChunks chunksize file)
  let df := dfConcat chunks
  if truthy nrows then dfHead (nrows.getD 0) df else df

/-! ## Sampling loader (`src/data_loader.py`, `load_sample_data`) -/

/-- The `skiprows` filter of the sampling read: CSV line 0 is the header
(always kept — it defines the columns, not a row); data row `j` sits on
CSV line `j + 1` and is kept iff its uniform draw is at most
`1 - skip_prob`.  `draws` is the explicit stream of `np.random.random()`
values. -/
def filterByDraws (draws : Nat → Rat) (keepProb : Rat) (df : DataFrame) : DataFrame :=
  df.map (fun c =>
    ⟨c.name, c.dtype,
     (c.values.enum.filter (fun p => decide (draws (p.1 + 1) ≤ keepProb))).map Prod.snd⟩)

/-- `load_sample_data(filepath, sample_size, random_state, stratify_by)`.
The pandas row sampler `df.sample(n, random_state=seed)` is an explicit
parameter `sampler` (its RNG is library-internal, but it is a
deterministic function of the seed and the frame).  `none` models the
`ZeroDivisionError` of the skip probability on a file without data rows.
`stratify_by` is accepted and never read — exactly as in the source. -/
def load_sample_data (file : DataFrame) (sample_size : Nat) (random_state : Nat)
    (draws : Nat → Rat) (sampler : Nat → Nat → DataFrame → DataFrame)
    (stratify_by : Option String) : Option DataFrame :=
  let total_rows := rowCount file
  if total_rows = 0 then none
  else
    let skip_prob : Rat := 1 - (sample_size : Rat) / total_rows
    let df := filterByDraws draws (1 - skip_prob) file
    let df2 := if sample_size < rowCount df then sampler sample_size random_state df else df
    some (optimizeDf df2)

/-! ## Concrete frames used by counterexamples and witnesses -/

/-- One passenger aged exactly 0 (the lower edge of the first bin). -/
def ageZeroDf : DataFrame := [⟨"Age", .int64, [.int 0]⟩]

/-- One passenger aged 30. -/
def ageThirtyDf : DataFrame := [⟨"Age", .int64, [.int 30]⟩]

/-- An integer `DISTANCE` value above the `int16` range. -/
def distOverflowDf : DataFrame := [⟨"DISTANCE", .int64, [.int 100000]⟩]

/-- A `WHEELS_OFF` column (target `int16`) holding a missing value: the
integer cast raises and is caught. -/
def wheelsNanCol : Column := ⟨"WHEELS_OFF", .float64, [.nan]⟩

/-- A five-row, two-column file for the chunked-loader claims. -/
def fiveRowFile : DataFrame :=
  [⟨"YEAR", .int64, [.int 2015, .int 2016, .int 2017, .int 2018, .int 2019]⟩,
   ⟨"X", .float64, [.float 1, .float 2, .float 3, .float 4, .float 5]⟩]

/-- The delay series `[5, 10, 20, None, 70]` of the spec's worked example. -/
def delayExampleDf : DataFrame :=
  [⟨"ARRIVAL_DELAY", .float64, [.float 5, .float 10, .float 20, .nan, .float 70]⟩]

/-- A one-row, one-column frame for the memory-report claims. -/
def memExampleDf : DataFrame := [⟨"CANCELLED", .int8, [.int 0]⟩]

/-- A frame that already carries a `MONTH` column next to its parsed
departure date. -/
def monthClashDf : DataFrame :=
  [⟨"DEPARTURE_DATE", .datetime64, [.date 2024 1 15]⟩,
   ⟨"MONTH", .int64, [.int 7]⟩]

/-- A delay column whose values are all missing. -/
def allNanDelayDf : DataFrame := [⟨"ARRIVAL_DELAY", .float32, [.nan, .nan]⟩]

/-! # Helper lemmas -/

theorem roundHalfEven_close (x : Rat) : |(roundHalfEven x : Rat) - x| ≤ 1 / 2 := by
  have h0 : (0 : Rat) ≤ x - ⌊x⌋ := sub_nonneg.mpr (Int.floor_le x)
  have h1 : x - ⌊x⌋ < 1 := by have := Int.lt_floor_add_one x; linarith
  unfold roundHalfEven
  split_ifs with ha hb hc
  · rw [abs_le]; constructor <;> linarith
  · rw [abs_le]; push_cast; constructor <;> linarith
  · rw [abs_le]; constructor <;> linarith
  · rw [abs_le]; push_cast; constructor <;> linarith

theorem roundTo_close (d : Nat) (x : Rat) : |roundTo d x - x| ≤ 1 / (2 * 10 ^ d) := by
  have hp : (0 : Rat) < 10 ^ d := by positivity
  have h := roundHalfEven_close (x * 10 ^ d)
  have he : roundTo d x - x = ((roundHalfEven (x * 10 ^ d) : Rat) - x * 10 ^ d) / 10 ^ d := by
    unfold roundTo; field_simp; ring
  rw [he, abs_div, abs_of_pos hp]
  have h2 := (div_le_div_iff_of_pos_right hp).mpr h
  calc |(roundHalfEven (x * 10 ^ d) : Rat) - x * 10 ^ d| / 10 ^ d
      ≤ (1 / 2) / 10 ^ d := h2
    _ = 1 / (2 * 10 ^ d) := by ring

theorem foldl_min_mem (x : Rat) (xs : List Rat) : xs.foldl min x ∈ x :: xs := by
  induction xs generalizing x with
  | nil => simp
  | cons y ys ih =>
    rw [List.foldl_cons]
    rcases List.mem_cons.mp (ih (min x y)) with h | h
    · rcases min_choice x y with he | he
      · rw [h, he]; exact List.mem_cons_self _ _
      · rw [h, he]; exact List.mem_cons.mpr (Or.inr (List.mem_cons_self _ _))
    · exact List.mem_cons.mpr (Or.inr (List.mem_cons.mpr (Or.inr h)))

theorem foldl_min_le (x : Rat) (xs : List Rat) : ∀ y ∈ x :: xs, xs.foldl min x ≤ y := by
  induction xs generalizing x with
  | nil =>
    intro y hy
    rw [List.mem_singleton] at hy
    subst hy
    exact le_refl _
  | cons z zs ih =>
    intro y hy
    have hbase : (z :: zs).foldl min x ≤ min x z := by
      rw [List.foldl_cons]
      exact ih (min x z) (min x z) (List.mem_cons_self _ _)
    rcases List.mem_cons.mp hy with rfl | hy2
    · exact le_trans hbase (min_le_left _ _)
    · rcases List.mem_cons.mp hy2 with rfl | hy3
      · exact le_trans hbase (min_le_right _ _)
      · rw [List.foldl_cons]
        exact ih (min x z) y (List.mem_cons.mpr (Or.inr hy3))

theorem foldl_max_mem (x : Rat) (xs : List Rat) : xs.foldl max x ∈ x :: xs := by
  induction xs generalizing x with
  | nil => simp
  | cons y ys ih =>
    rw [List.foldl_cons]
    rcases List.mem_cons.mp (ih (max x y)) with h | h
    · rcases max_choice x y with he | he
      · rw [h, he]; exact List.mem_cons_self _ _
      · rw [h, he]; exact List.mem_cons.mpr (Or.inr (List.mem_cons_self _ _))
    · exact List.mem_cons.mpr (Or.inr (List.mem_cons.mpr (Or.inr h)))

theorem foldl_le_max (x : Rat) (xs : List Rat) : ∀ y ∈ x :: xs, y ≤ xs.foldl max x := by
  induction xs generalizing x with
  | nil =>
    intro y hy
    rw [List.mem_singleton] at hy
    subst hy
    exact le_refl _
  | cons z zs ih =>
    intro y hy
    have hbase : max x z ≤ (z :: zs).foldl max x := by
      rw [List.foldl_cons]
      exact ih (max x z) (max x z) (List.mem_cons_self _ _)
    rcases List.mem_cons.mp hy with rfl | hy2
    · exact le_trans (le_max_left _ _) hbase
    · rcases List.mem_cons.mp hy2 with rfl | hy3
      · exact le_trans (le_max_right _ _) hbase
      · rw [List.foldl_cons]
        exact ih (max x z) y (List.mem_cons.mpr (Or.inr hy3))

theorem mapOpt_length {α β : Type} (f : α → Option β) :
    ∀ {l : List α} {l2 : List β}, mapOpt f l = some l2 → l2.length = l.length := by
  intro l
  induction l with
  | nil => intro l2 h; simp [mapOpt] at h; simp [← h]
  | cons a t ih =>
    intro l2 h
    simp only [mapOpt] at h
    cases hfa : f a with
    | none => rw [hfa] at h; simp at h
    | some b =>
      rw [hfa] at h
      cases hrest : mapOpt f t with
      | none => rw [hrest] at h; simp at h
      | some t2 =>
        rw [hrest] at h
        simp at h
        rw [← h]
        simp [ih hrest]

theorem mapOpt_fix {α : Type} (f : α → Option α)
    (hf : ∀ x y, f x = some y → f y = some y) :
    ∀ {l l2 : List α}, mapOpt f l = some l2 → mapOpt f l2 = some l2 := by
  intro l
  induction l with
  | nil => intro l2 h; simp [mapOpt] at h; subst h; simp [mapOpt]
  | cons a t ih =>
    intro l2 h
    simp only [mapOpt] at h
    cases hfa : f a with
    | none => rw [hfa] at h; simp at h
    | some b =>
      rw [hfa] at h
      cases hrest : mapOpt f t with
      | none => rw [hrest] at h; simp at h
      | some t2 =>
        rw [hrest] at h
        simp at h
        rw [← h]
        simp [mapOpt, hf a b hfa, ih hrest]

theorem intWrap_idem (w : Nat) (i : Int) : intWrap w (intWrap w i) = intWrap w i := by
  unfold intWrap
  rw [sub_add_cancel, Int.emod_emod_of_dvd _ dvd_rfl]

theorem castCellInt_fix (w : Nat) (x y : Cell) (h : castCellInt w x = some y) :
    castCellInt w y = some y := by
  cases x with
  | int i =>
    simp [castCellInt] at h
    subst h
    simp [castCellInt, intWrap_idem]
  | float q =>
    simp [castCellInt] at h
    subst h
    simp [castCellInt, intWrap_idem]
  | str s =>
    cases hs : s.toInt? with
    | none => simp [castCellInt, hs] at h
    | some n =>
      simp [castCellInt, hs] at h
      subst h
      simp [castCellInt, intWrap_idem]
  | date y m d => simp [castCellInt] at h
  | nan => simp [castCellInt] at h

theorem castCellFloat_fix (x y : Cell) (h : castCellFloat x = some y) :
    castCellFloat y = some y := by
  cases x with
  | int i =>
    simp [castCellFloat] at h
    subst h
    simp [castCellFloat]
  | float q =>
    simp [castCellFloat] at h
    subst h
    simp [castCellFloat]
  | str s =>
    cases hs : s.toInt? with
    | none => simp [castCellFloat, hs] at h
    | some n =>
      simp [castCellFloat, hs] at h
      subst h
      simp [castCellFloat]
  | date y m d => simp [castCellFloat] at h
  | nan =>
    simp [castCellFloat] at h
    subst h
    simp [castCellFloat]

theorem mapOpt_build_meta {f : Cell → Option Cell} {c : Column} {t : Dtype} {c2 : Column}
    (h : (mapOpt f c.values).map (fun vs => Column.mk c.name t vs) = some c2) :
    c2.name = c.name ∧ c2.dtype = t ∧ c2.values.length = c.values.length := by
  rw [Option.map_eq_some'] at h
  obtain ⟨vs, hm, heq⟩ := h
  subst heq
  exact ⟨rfl, rfl, mapOpt_length _ hm⟩

/-- A successful `astype` keeps the label, sets the target dtype, and keeps
the row count. -/
theorem astypeColumn_meta (c : Column) (t : Dtype) (c2 : Column)
    (h : astypeColumn c t = some c2) :
    c2.name = c.name ∧ c2.dtype = t ∧ c2.values.length = c.values.length := by
  cases t with
  | int8 => exact mapOpt_build_meta h
  | int16 => exact mapOpt_build_meta h
  | int32 => exact mapOpt_build_meta h
  | int64 => exact mapOpt_build_meta h
  | float32 => exact mapOpt_build_meta h
  | float64 => exact mapOpt_build_meta h
  | category =>
    simp only [astypeColumn, Option.some_inj] at h
    subst h
    exact ⟨rfl, rfl, rfl⟩
  | intN8 => exact Option.noConfusion h
  | datetime64 => exact Option.noConfusion h
  | obj => exact Option.noConfusion h

theorem mapOpt_build_fix {f : Cell → Option Cell}
    (hf : ∀ x y, f x = some y → f y = some y) {c : Column} {t : Dtype} {c2 : Column}
    (h : (mapOpt f c.values).map (fun vs => Column.mk c.name t vs) = some c2)
    (c3 : Column) (hn : c3.name = c2.name) (hv : c3.values = c2.values) :
    (mapOpt f c3.values).map (fun vs => Column.mk c3.name t vs) = some c2 := by
  rw [Option.map_eq_some'] at h
  obtain ⟨vs, hm, heq⟩ := h
  subst heq
  rw [hv]
  simp only []
  rw [mapOpt_fix f hf hm]
  simp [hn]

/-- Re-casting the result of a successful `astype` (possibly after its
dtype was re-tagged, but with label and values intact) gives it back. -/
theorem astypeColumn_fix (c : Column) (t : Dtype) (c2 : Column)
    (h : astypeColumn c t = some c2) (c3 : Column)
    (hn : c3.name = c2.name) (hv : c3.values = c2.values) :
    astypeColumn c3 t = some c2 := by
  cases t with
  | int8 => exact mapOpt_build_fix (castCellInt_fix 8) h c3 hn hv
  | int16 => exact mapOpt_build_fix (castCellInt_fix 16) h c3 hn hv
  | int32 => exact mapOpt_build_fix (castCellInt_fix 32) h c3 hn hv
  | int64 => exact mapOpt_build_fix (castCellInt_fix 64) h c3 hn hv
  | float32 => exact mapOpt_build_fix castCellFloat_fix h c3 hn hv
  | float64 => exact mapOpt_build_fix castCellFloat_fix h c3 hn hv
  | category =>
    simp only [astypeColumn, Option.some_inj] at h ⊢
    subst h
    simp only [astypeColumn] at hn hv ⊢
    rw [hn, hv]
  | intN8 => exact Option.noConfusion h
  | datetime64 => exact Option.noConfusion h
  | obj => exact Option.noConfusion h

theorem catStep_name (c : Column) : (catStep c).name = c.name := by
  unfold catStep; split <;> rfl

theorem catStep_values (c : Column) : (catStep c).values = c.values := by
  unfold catStep; split <;> rfl

theorem catStep_idem (c : Column) : catStep (catStep c) = catStep c := by
  by_cases h : c.name ∈ CATEGORICAL_COLS <;> simp [catStep, h]

theorem intStep_eq_none (c : Column) (h : INTEGER_MAP.lookup c.name = none) :
    intStep c = (c, []) := by
  simp only [intStep, h]

theorem intStep_eq_fail (c : Column) (t : Dtype)
    (h1 : INTEGER_MAP.lookup c.name = some t) (h2 : astypeColumn c t = none) :
    intStep c = (c, [coercionWarning c.name t]) := by
  simp only [intStep, h1, h2]

theorem intStep_eq_ok (c : Column) (t : Dtype) (c2 : Column)
    (h1 : INTEGER_MAP.lookup c.name = some t) (h2 : astypeColumn c t = some c2) :
    intStep c = (c2, []) := by
  simp only [intStep, h1, h2]

/-- Optimizing a single column twice gives the column of the single pass. -/
theorem optimizeColumn_idem (c : Column) :
    (optimizeColumn ((optimizeColumn c).1)).1 = (optimizeColumn c).1 := by
  cases hl : INTEGER_MAP.lookup (catStep c).name with
  | none =>
    have h1 : optimizeColumn c = (catStep c, []) := by
      unfold optimizeColumn; rw [intStep_eq_none _ hl]
    rw [h1]
    unfold optimizeColumn
    rw [catStep_idem, intStep_eq_none _ hl]
  | some t =>
    cases hc : astypeColumn (catStep c) t with
    | none =>
      have h1 : optimizeColumn c = (catStep c, [coercionWarning (catStep c).name t]) := by
        unfold optimizeColumn; rw [intStep_eq_fail _ _ hl hc]
      rw [h1]
      unfold optimizeColumn
      rw [catStep_idem, intStep_eq_fail _ _ hl hc]
    | some c2 =>
      have h1 : optimizeColumn c = (c2, []) := by
        unfold optimizeColumn; rw [intStep_eq_ok _ _ _ hl hc]
      rw [h1]
      obtain ⟨hn2, ht2, hlen2⟩ := astypeColumn_meta _ _ _ hc
      unfold optimizeColumn
      by_cases hcat : c2.name ∈ CATEGORICAL_COLS
      · have hcs : catStep c2 = ⟨c2.name, .category, c2.values⟩ := by simp [catStep, hcat]
        rw [hcs]
        have hfix : astypeColumn ⟨c2.name, .category, c2.values⟩ t = some c2 :=
          astypeColumn_fix _ _ _ hc _ rfl rfl
        have hl2 : INTEGER_MAP.lookup (Column.mk c2.name .category c2.values).name = some t := by
          simp only []
          rw [hn2, hl]
        rw [intStep_eq_ok _ _ _ hl2 hfix]
      · have hcs : catStep c2 = c2 := by simp [catStep, hcat]
        rw [hcs]
        have hfix : astypeColumn c2 t = some c2 :=
          astypeColumn_fix _ _ _ hc _ rfl rfl
        have hl2 : INTEGER_MAP.lookup c2.name = some t := by rw [hn2, hl]
        rw [intStep_eq_ok _ _ _ hl2 hfix]

theorem optimizeColumn_fst_name (c : Column) : ((optimizeColumn c).1).name = c.name := by
  cases hl : INTEGER_MAP.lookup (catStep c).name with
  | none =>
    unfold optimizeColumn
    rw [intStep_eq_none _ hl]
    exact catStep_name c
  | some t =>
    cases hc : astypeColumn (catStep c) t with
    | none =>
      unfold optimizeColumn
      rw [intStep_eq_fail _ _ hl hc]
      exact catStep_name c
    | some c2 =>
      unfold optimizeColumn
      rw [intStep_eq_ok _ _ _ hl hc]
      rw [(astypeColumn_meta _ _ _ hc).1, catStep_name]

theorem optimizeColumn_fst_length (c : Column) :
    ((optimizeColumn c).1).values.length = c.values.length := by
  cases hl : INTEGER_MAP.lookup (catStep c).name with
  | none =>
    unfold optimizeColumn
    rw [intStep_eq_none _ hl, catStep_values]
  | some t =>
    cases hc : astypeColumn (catStep c) t with
    | none =>
      unfold optimizeColumn
      rw [intStep_eq_fail _ _ hl hc, catStep_values]
    | some c2 =>
      unfold optimizeColumn
      rw [intStep_eq_ok _ _ _ hl hc]
      rw [(astypeColumn_meta _ _ _ hc).2.2, catStep_values]

theorem optimizeDf_names (df : DataFrame) :
    (optimizeDf df).map Column.name = df.map Column.name := by
  unfold optimizeDf optimize_dataframe_dtypes
  simp only [List.map_map]
  exact List.map_congr_left (fun c _ => optimizeColumn_fst_name c)

theorem optimizeDf_length (df : DataFrame) : (optimizeDf df).length = df.length := by
  simp [optimizeDf, optimize_dataframe_dtypes]

theorem optimizeDf_rowCount (df : DataFrame) : rowCount (optimizeDf df) = rowCount df := by
  cases df with
  | nil => rfl
  | cons c cs =>
    show ((optimizeColumn c).1).values.length = c.values.length
    exact optimizeColumn_fst_length c

theorem optimizeDf_colsLen (df : DataFrame) (R : Nat)
    (h : ∀ c ∈ df, c.values.length = R) :
    ∀ c2 ∈ optimizeDf df, c2.values.length = R := by
  intro c2 hc2
  unfold optimizeDf optimize_dataframe_dtypes at hc2
  obtain ⟨c, hc, heq⟩ := List.mem_map.mp hc2
  rw [← heq, optimizeColumn_fst_length]
  exact h c hc

/-! # Claim C2 -/

/-- C2: the dtype optimizer is idempotent — for every table `T`,
`optimize_dataframe_dtypes(optimize_dataframe_dtypes(T))` returns the same
table (same values and same column dtypes) as a single application. -/
theorem optimize_dtypes_idempotent (df : DataFrame) :
    optimizeDf (optimizeDf df) = optimizeDf df := by
  unfold optimizeDf optimize_dataframe_dtypes
  simp only [List.map_map, Function.comp]
  exact List.map_congr_left (fun c _ => optimizeColumn_idem c)

/-! # Column access and assignment lemmas -/

theorem getCol_mem {df : DataFrame} {n : String} {c : Column}
    (h : getCol df n = some c) : c ∈ df :=
  List.mem_of_find?_eq_some h

theorem getCol_name {df : DataFrame} {n : String} {c : Column}
    (h : getCol df n = some c) : c.name = n := by
  have := List.find?_some h
  simpa using this

theorem find?_replaceCol_ne (cs : List Column) (n m : String) (dt : Dtype) (vs : List Cell)
    (h : n ≠ m) :
    List.find? (fun c => decide (c.name = n))
      (cs.map (fun c => if c.name = m then (⟨m, dt, vs⟩ : Column) else c)) =
    List.find? (fun c => decide (c.name = n)) cs := by
  induction cs with
  | nil => rfl
  | cons c cs ih =>
    simp only [List.map_cons]
    by_cases hc : c.name = m
    · rw [if_pos hc]
      have t1 : decide ((Column.mk m dt vs).name = n) = false := by simp [Ne.symm h]
      have t2 : decide (c.name = n) = false := by simp [hc, Ne.symm h]
      rw [List.find?_cons, List.find?_cons, t1, t2]
      exact ih
    · rw [if_neg hc]
      by_cases hcn : c.name = n
      · rw [List.find?_cons, List.find?_cons]
        simp [hcn]
      · have t2 : decide (c.name = n) = false := by simp [hcn]
        rw [List.find?_cons, List.find?_cons, t2]
        exact ih

theorem getCol_setCol_ne (df : DataFrame) (n m : String) (dt : Dtype) (vs : List Cell)
    (h : n ≠ m) : getCol (setCol df m dt vs) n = getCol df n := by
  unfold setCol getCol
  split
  · exact find?_replaceCol_ne df n m dt vs h
  · rw [List.find?_append]
    have hnone : List.find? (fun c => decide (c.name = n)) [(⟨m, dt, vs⟩ : Column)] = none := by
      rw [List.find?_cons]
      have t1 : decide ((Column.mk m dt vs).name = n) = false := by simp [Ne.symm h]
      rw [t1]
      rfl
    rw [hnone]
    cases List.find? (fun c => decide (c.name = n)) df <;> rfl

theorem find?_replaceCol_self (cs : List Column) (m : String) (dt : Dtype) (vs : List Cell)
    (hany : ∃ c0 ∈ cs, c0.name = m) :
    List.find? (fun c => decide (c.name = m))
      (cs.map (fun c => if c.name = m then (⟨m, dt, vs⟩ : Column) else c)) =
    some ⟨m, dt, vs⟩ := by
  induction cs with
  | nil => simp at hany
  | cons c cs ih =>
    simp only [List.map_cons]
    by_cases hc : c.name = m
    · rw [if_pos hc, List.find?_cons]
      simp
    · rw [if_neg hc]
      have t2 : decide (c.name = m) = false := by simp [hc]
      rw [List.find?_cons, t2]
      apply ih
      obtain ⟨c0, hc0, he⟩ := hany
      rcases List.mem_cons.mp hc0 with rfl | hmem
      · exact absurd he hc
      · exact ⟨c0, hmem, he⟩

theorem getCol_setCol_self (df : DataFrame) (m : String) (dt : Dtype) (vs : List Cell) :
    getCol (setCol df m dt vs) m = some ⟨m, dt, vs⟩ := by
  unfold setCol getCol
  split
  case isTrue hany =>
    rw [List.any_eq_true] at hany
    apply find?_replaceCol_self
    obtain ⟨c0, hc0, hp⟩ := hany
    exact ⟨c0, hc0, by simpa using hp⟩
  case isFalse hany =>
    rw [List.find?_append]
    have hnone : List.find? (fun c => decide (c.name = m)) df = none := by
      rw [List.find?_eq_none]
      intro c hc
      simp only [decide_eq_true_eq]
      intro he
      exact hany (List.any_eq_true.mpr ⟨c, hc, by simp [he]⟩)
    rw [hnone]
    simp

theorem setCol_mem_of_ne (df : DataFrame) (n : String) (dt : Dtype) (vs : List Cell)
    (c : Column) (hm : c ∈ df) (hne : c.name ≠ n) : c ∈ setCol df n dt vs := by
  unfold setCol
  split
  · have he : (fun x => if x.name = n then (⟨n, dt, vs⟩ : Column) else x) c = c := by
      simp [hne]
    exact he ▸ List.mem_map_of_mem _ hm
  · exact List.mem_append_left _ hm

theorem setCol_names (df : DataFrame) (n : String) (dt : Dtype) (vs : List Cell) :
    ∃ extra, (setCol df n dt vs).map Column.name = df.map Column.name ++ extra := by
  unfold setCol
  split
  · refine ⟨[], ?_⟩
    rw [List.append_nil, List.map_map]
    apply List.map_congr_left
    intro c _
    by_cases h : c.name = n <;> simp [h]
  · exact ⟨[n], by simp⟩

theorem setCol_colsLen (df : DataFrame) (R : Nat) (n : String) (dt : Dtype) (vs : List Cell)
    (hinv : ∀ c ∈ df, c.values.length = R) (hv : vs.length = R) :
    ∀ c ∈ setCol df n dt vs, c.values.length = R := by
  unfold setCol
  split
  · intro c hc
    obtain ⟨c0, hc0, heq⟩ := List.mem_map.mp hc
    by_cases h : c0.name = n
    · rw [← heq]; simp [h, hv]
    · rw [← heq]; simp [h]; exact hinv c0 hc0
  · intro c hc
    rcases List.mem_append.mp hc with h | h
    · exact hinv c h
    · simp at h; subst h; exact hv

theorem setCol_ne_nil (df : DataFrame) (n : String) (dt : Dtype) (vs : List Cell) :
    setCol df n dt vs ≠ [] := by
  unfold setCol
  split
  case isTrue hany =>
    cases df with
    | nil => simp at hany
    | cons c cs => simp
  case isFalse => simp

/-! # Feature-deriver step lemmas -/

/-- The labels assigned by the date block. -/
theorem dateChain_props (df : DataFrame) (c : Column) (hc : c ∈ df) :
    ∀ d4, d4 = setCol (setCol (setCol (setCol df "MONTH" .intN8 (c.values.map monthCell))
        "MONTH_NAME" .category (c.values.map monthNameCell))
        "DAY_OF_WEEK" .intN8 (c.values.map dowCell))
        "DAY_NAME" .category (c.values.map dayNameCell) →
      (∃ extra, d4.map Column.name = df.map Column.name ++ extra) ∧
      (∀ x ∈ df, x.name ≠ "MONTH" → x.name ≠ "MONTH_NAME" →
        x.name ≠ "DAY_OF_WEEK" → x.name ≠ "DAY_NAME" → x ∈ d4) ∧
      (∀ R, (∀ x ∈ df, x.values.length = R) → ∀ x ∈ d4, x.values.length = R) ∧
      d4 ≠ [] ∧
      (∀ n, n ≠ "MONTH" → n ≠ "MONTH_NAME" → n ≠ "DAY_OF_WEEK" → n ≠ "DAY_NAME" →
        getCol d4 n = getCol df n) := by
  intro d4 hd4
  subst hd4
  refine ⟨?_, ?_, ?_, setCol_ne_nil _ _ _ _, ?_⟩
  · obtain ⟨e1, h1⟩ := setCol_names df "MONTH" .intN8 (c.values.map monthCell)
    obtain ⟨e2, h2⟩ := setCol_names _ "MONTH_NAME" .category (c.values.map monthNameCell)
    obtain ⟨e3, h3⟩ := setCol_names _ "DAY_OF_WEEK" .intN8 (c.values.map dowCell)
    obtain ⟨e4, h4⟩ := setCol_names _ "DAY_NAME" .category (c.values.map dayNameCell)
    exact ⟨e1 ++ e2 ++ e3 ++ e4, by rw [h4, h3, h2, h1]; simp [List.append_assoc]⟩
  · intro x hx n1 n2 n3 n4
    exact setCol_mem_of_ne _ _ _ _ x
      (setCol_mem_of_ne _ _ _ _ x
        (setCol_mem_of_ne _ _ _ _ x
          (setCol_mem_of_ne _ _ _ _ x hx n1) n2) n3) n4
  · intro R hR
    have hcR : c.values.length = R := hR c hc
    have i1 := setCol_colsLen df R "MONTH" .intN8 (c.values.map monthCell) hR
      (by simp [hcR])
    have i2 := setCol_colsLen _ R "MONTH_NAME" .category (c.values.map monthNameCell) i1
      (by simp [hcR])
    have i3 := setCol_colsLen _ R "DAY_OF_WEEK" .intN8 (c.values.map dowCell) i2
      (by simp [hcR])
    exact setCol_colsLen _ R "DAY_NAME" .category (c.values.map dayNameCell) i3
      (by simp [hcR])
  · intro n n1 n2 n3 n4
    rw [getCol_setCol_ne _ _ _ _ _ n4, getCol_setCol_ne _ _ _ _ _ n3,
        getCol_setCol_ne _ _ _ _ _ n2, getCol_setCol_ne _ _ _ _ _ n1]

/-- The route block either leaves the frame alone or assigns `ROUTE`. -/
theorem routeStep_props (df1 : DataFrame) :
    ∀ df2, df2 = (match getCol df1 "Airport Name", getCol df1 "Arrival Airport" with
      | some a, some b =>
          setCol df1 "ROUTE" .category
            ((a.values.zip b.values).map (fun p => Cell.str (pyStr p.1 ++ " to " ++ pyStr p.2)))
      | _, _ => df1) →
      (∃ extra, df2.map Column.name = df1.map Column.name ++ extra) ∧
      (∀ x ∈ df1, x.name ≠ "ROUTE" → x ∈ df2) ∧
      (∀ R, (∀ x ∈ df1, x.values.length = R) → ∀ x ∈ df2, x.values.length = R) ∧
      (df1 ≠ [] → df2 ≠ []) ∧
      (∀ n, n ≠ "ROUTE" → getCol df2 n = getCol df1 n) := by
  intro df2 hd2
  cases hA : getCol df1 "Airport Name" with
  | none =>
    rw [hA] at hd2
    subst hd2
    exact ⟨⟨[], by simp⟩, fun x hx _ => hx, fun R hR => hR, fun h => h, fun n _ => rfl⟩
  | some a =>
    cases hB : getCol df1 "Arrival Airport" with
    | none =>
      rw [hA, hB] at hd2
      subst hd2
      exact ⟨⟨[], by simp⟩, fun x hx _ => hx, fun R hR => hR, fun h => h, fun n _ => rfl⟩
    | some b =>
      rw [hA, hB] at hd2
      subst hd2
      refine ⟨setCol_names _ _ _ _, ?_, ?_, fun _ => setCol_ne_nil _ _ _ _, ?_⟩
      · intro x hx hne
        exact setCol_mem_of_ne _ _ _ _ x hx hne
      · intro R hR
        have ha : a.values.length = R := hR a (getCol_mem hA)
        have hb : b.values.length = R := hR b (getCol_mem hB)
        exact setCol_colsLen _ R "ROUTE" .category
          ((a.values.zip b.values).map (fun p => Cell.str (pyStr p.1 ++ " to " ++ pyStr p.2)))
          hR (by simp [ha, hb])
      · intro n hne
        exact getCol_setCol_ne _ _ _ _ _ hne

/-- The age block: what the final frame is, in each case. -/
theorem ageStep_cases (df2 out : DataFrame)
    (hd : (match getCol df2 "Age" with
           | none => some df2
           | some c =>
             if c.dtype.isNumeric = true then
               some (setCol df2 "AGE_GROUP" .category (c.values.map cutAgeCell))
             else none) = some out) :
    (getCol df2 "Age" = none ∧ out = df2) ∨
    (∃ c, getCol df2 "Age" = some c ∧ c.dtype.isNumeric = true ∧
      out = setCol df2 "AGE_GROUP" .category (c.values.map cutAgeCell)) := by
  split at hd
  · exact Or.inl ⟨‹_›, (Option.some_inj.mp hd).symm⟩
  · split at hd
    · exact Or.inr ⟨_, ‹_›, ‹_›, (Option.some_inj.mp hd).symm⟩
    · exact Option.noConfusion hd

/-- Combined structural properties of a successful feature derivation:
labels grow by appended derived labels only, columns not named like a
derived feature survive unchanged, all column lengths are preserved, the
frame stays non-empty, and a numeric age column yields the binned
`AGE_GROUP` column. -/
theorem derive_props (df out : DataFrame)
    (hd : create_derived_features df = some out) :
    (∃ extra, out.map Column.name = df.map Column.name ++ extra) ∧
    (∀ c ∈ df, c.name ∉ DERIVED_NAMES → c ∈ out) ∧
    (∀ R, (∀ c ∈ df, c.values.length = R) → ∀ c ∈ out, c.values.length = R) ∧
    (df ≠ [] → out ≠ []) ∧
    (∀ ageCol, getCol df "Age" = some ageCol →
      getCol out "AGE_GROUP" = some ⟨"AGE_GROUP", .category, ageCol.values.map cutAgeCell⟩) := by
  simp only [create_derived_features] at hd
  split at hd
  · exact Option.noConfusion hd
  next df1 heq =>
    -- properties of the date phase: df → df1
    have hphase1 :
        (∃ extra, df1.map Column.name = df.map Column.name ++ extra) ∧
        (∀ c ∈ df, c.name ∉ DERIVED_NAMES → c ∈ df1) ∧
        (∀ R, (∀ c ∈ df, c.values.length = R) → ∀ c ∈ df1, c.values.length = R) ∧
        (df ≠ [] → df1 ≠ []) ∧
        (getCol df1 "Age" = getCol df "Age") := by
      split at heq
      · rw [Option.some_inj] at heq
        subst heq
        exact ⟨⟨[], by simp⟩, fun c hc _ => hc, fun R hR => hR, fun h => h, rfl⟩
      next c hdd =>
        split at heq
        · rw [Option.some_inj] at heq
          have hp := dateChain_props df c (getCol_mem hdd) df1 heq.symm
          refine ⟨hp.1, ?_, hp.2.2.1, fun _ => hp.2.2.2.1, ?_⟩
          · intro x hx hn
            refine hp.2.1 x hx ?_ ?_ ?_ ?_ <;>
              (intro he; apply hn; rw [he]; simp [DERIVED_NAMES])
          · exact hp.2.2.2.2 "Age" (by decide) (by decide) (by decide) (by decide)
        · exact Option.noConfusion heq
    -- properties of the route phase: df1 → df2 (the inlined match)
    obtain ⟨hrn, hrm, hrl, hrne, hrst⟩ := routeStep_props df1 _ rfl
    -- the age phase
    rcases ageStep_cases _ out hd with ⟨hnone, rfl⟩ | ⟨cAge, hcA, hnum, rfl⟩
    · refine ⟨?_, ?_, ?_, ?_, ?_⟩
      · obtain ⟨e1, h1⟩ := hphase1.1
        obtain ⟨e2, h2⟩ := hrn
        exact ⟨e1 ++ e2, by rw [h2, h1, List.append_assoc]⟩
      · intro c hc hn
        refine hrm c (hphase1.2.1 c hc hn) ?_
        intro he; apply hn; rw [he]; simp [DERIVED_NAMES]
      · intro R hR
        exact hrl R (hphase1.2.2.1 R hR)
      · intro hne
        exact hrne (hphase1.2.2.2.1 hne)
      · intro ageCol hac
        exfalso
        rw [hrst "Age" (by decide), hphase1.2.2.2.2, hac] at hnone
        exact Option.noConfusion hnone
    · have hcA2 : getCol df "Age" = some cAge := by
        rw [← hphase1.2.2.2.2, ← hrst "Age" (by decide)]
        exact hcA
      refine ⟨?_, ?_, ?_, ?_, ?_⟩
      · obtain ⟨e1, h1⟩ := hphase1.1
        obtain ⟨e2, h2⟩ := hrn
        obtain ⟨e3, h3⟩ := setCol_names _ "AGE_GROUP" .category (cAge.values.map cutAgeCell)
        exact ⟨e1 ++ e2 ++ e3, by rw [h3, h2, h1]; simp [List.append_assoc]⟩
      · intro c hc hn
        refine setCol_mem_of_ne _ _ _ _ c
          (hrm c (hphase1.2.1 c hc hn) ?_) ?_ <;>
          (intro he; apply hn; rw [he]; simp [DERIVED_NAMES])
      · intro R hR
        have hAgeLen : cAge.values.length = R :=
          hrl R (hphase1.2.2.1 R hR) cAge (getCol_mem hcA)
        exact setCol_colsLen _ R "AGE_GROUP" .category (cAge.values.map cutAgeCell)
          (hrl R (hphase1.2.2.1 R hR)) (by simp [hAgeLen])
      · intro _
        exact setCol_ne_nil _ _ _ _
      · intro ageCol hac
        have : ageCol = cAge := by
          rw [hcA2] at hac
          exact Option.some_inj.mp hac.symm
        subst this
        exact getCol_setCol_self _ _ _ _

/-- When the date column (if any) is parsed and the age column (if any) is
numeric, `create_derived_features` raises no error. -/
theorem derive_succeeds (df : DataFrame)
    (hdate : ∀ c, getCol df "DEPARTURE_DATE" = some c → c.dtype = .datetime64)
    (hage : ∀ c, getCol df "Age" = some c → c.dtype.isNumeric = true) :
    ∃ out, create_derived_features df = some out := by
  simp only [create_derived_features]
  cases hdd : getCol df "DEPARTURE_DATE" with
  | none =>
    simp only [hdd]
    obtain ⟨_, _, _, _, hrst⟩ := routeStep_props df _ rfl
    rw [hrst "Age" (by decide)]
    cases hA : getCol df "Age" with
    | none => exact ⟨_, rfl⟩
    | some c => simp [hage c hA]
  | some c =>
    have hdt := hdate c hdd
    simp only [hdd, hdt, if_pos]
    obtain ⟨_, _, _, _, hdst⟩ :=
      dateChain_props df c (getCol_mem hdd) _ rfl
    obtain ⟨_, _, _, _, hrst⟩ := routeStep_props _ _ rfl
    rw [hrst "Age" (by decide),
        hdst "Age" (by decide) (by decide) (by decide) (by decide)]
    cases hA : getCol df "Age" with
    | none => exact ⟨_, rfl⟩
    | some c2 => simp [hage c2 hA]

/-! # Claim C7 -/

/-- C7: `optimize_dataframe_dtypes` preserves the row count and the column
count of any table, and `create_derived_features` preserves the row count
of any rectangular table (no implicit row filtering by either stage). -/
theorem pipeline_preserves_shape (df out : DataFrame)
    (hR : ∀ c ∈ df, c.values.length = rowCount df)
    (hd : create_derived_features df = some out) :
    (optimizeDf df).length = df.length ∧
    rowCount (optimizeDf df) = rowCount df ∧
    rowCount out = rowCount df := by
  refine ⟨optimizeDf_length df, optimizeDf_rowCount df, ?_⟩
  by_cases hdf : df = []
  · subst hdf
    have h0 : create_derived_features ([] : DataFrame) = some [] := by decide
    rw [h0] at hd
    rw [← Option.some_inj.mp hd]
  · have hp := derive_props df out hd
    have hne : out ≠ [] := hp.2.2.2.1 hdf
    have hcl := hp.2.2.1 (rowCount df) hR
    cases hout : out with
    | nil => exact absurd hout hne
    | cons c1 os =>
      show c1.values.length = rowCount df
      exact hcl c1 (hout ▸ List.mem_cons_self c1 os)

/-- C7 witness at a concrete five-row file. -/
theorem pipeline_preserves_shape_witness :
    (optimizeDf fiveRowFile).length = fiveRowFile.length ∧
    rowCount (optimizeDf fiveRowFile) = rowCount fiveRowFile ∧
    rowCount fiveRowFile = rowCount fiveRowFile :=
  pipeline_preserves_shape fiveRowFile fiveRowFile (by decide) (by decide)

/-! # Claim C8 -/

/-- C8 counterexample: on a table that already carries a `MONTH` column
(value 7) next to a parsed January departure date, the derived `MONTH`
assignment overwrites the caller's column values in place — the original
column is not present unchanged in the result. -/
theorem derive_overwrites_existing_month :
    (create_derived_features monthClashDf).bind (fun o => getCol o "MONTH") =
      some ⟨"MONTH", .intN8, [.int 1]⟩ ∧
    getCol monthClashDf "MONTH" = some ⟨"MONTH", .int64, [.int 7]⟩ := by decide

/-- C8 (amended): `create_derived_features` never removes or renames a
column — labels grow only by appended derived labels — and every input
column whose name is not among the six derived labels
(`MONTH`, `MONTH_NAME`, `DAY_OF_WEEK`, `DAY_NAME`, `ROUTE`, `AGE_GROUP`)
is present in the result with its name, dtype and values unchanged; a
pre-existing column with a derived label keeps its position but its values
are recomputed.  The caller's table itself is never mutated (the function
works on `df.copy()`; in this embedding the input is a value the call
cannot change). -/
theorem derive_additive (df out : DataFrame)
    (hd : create_derived_features df = some out) :
    (∀ c ∈ df, c.name ∉ DERIVED_NAMES → c ∈ out) ∧
    (∃ extra, out.map Column.name = df.map Column.name ++ extra) := by
  have hp := derive_props df out hd
  exact ⟨hp.2.1, hp.1⟩

/-- C8 witness at a concrete one-column table. -/
theorem derive_additive_witness :
    ∃ out, create_derived_features ageThirtyDf = some out ∧
      (∀ c ∈ ageThirtyDf, c.name ∉ DERIVED_NAMES → c ∈ out) ∧
      (∃ extra, out.map Column.name = ageThirtyDf.map Column.name ++ extra) := by
  have hd : create_derived_features ageThirtyDf =
      some [⟨"Age", .int64, [.int 30]⟩, ⟨"AGE_GROUP", .category, [.str "19-35"]⟩] := by
    decide
  exact ⟨_, hd, (derive_additive _ _ hd).1, (derive_additive _ _ hd).2⟩

/-! # Claim C1 -/

/-- C1 counterexample: Age = 0 lies in the claim's range `[0,120]`, yet the
assigned bucket is missing (`pd.cut` bins are left-open, so 0 falls outside
every bin), not a valid label from the five-label set. -/
theorem age_zero_gets_null_bucket :
    (create_derived_features ageZeroDf).bind (fun o => getCol o "AGE_GROUP") =
      some ⟨"AGE_GROUP", .category, [.nan]⟩ ∧
    (Cell.nan ∈ [Cell.str "0-18", Cell.str "19-35", Cell.str "36-50",
                 Cell.str "51-65", Cell.str "65+"]) = False := by
  constructor
  · decide
  · decide

/-- C1 (amended): for a table with a numeric `Age` column (and no
unparsed date column), `create_derived_features` raises no error and adds
an `AGE_GROUP` column binning each age by the left-open ranges
`(0,18], (18,35], (35,50], (50,65], (65,120]` with labels
`0-18, 19-35, 36-50, 51-65, 65+`; ages at or below 0, above 120, or
missing get a missing bucket. -/
theorem age_group_assignment (df : DataFrame) (ageCol : Column)
    (hage : getCol df "Age" = some ageCol)
    (hnum : ageCol.dtype.isNumeric = true)
    (hdate : ∀ c, getCol df "DEPARTURE_DATE" = some c → c.dtype = .datetime64) :
    ∃ out, create_derived_features df = some out ∧
      getCol out "AGE_GROUP" = some ⟨"AGE_GROUP", .category, ageCol.values.map cutAgeCell⟩ ∧
      (∀ x : Rat, 0 < x → x ≤ 120 →
        ageBucket x ∈ [Cell.str "0-18", Cell.str "19-35", Cell.str "36-50",
                       Cell.str "51-65", Cell.str "65+"]) ∧
      (∀ x : Rat, 0 < x → x ≤ 18 → ageBucket x = .str "0-18") ∧
      (∀ x : Rat, 18 < x → x ≤ 35 → ageBucket x = .str "19-35") ∧
      (∀ x : Rat, 35 < x → x ≤ 50 → ageBucket x = .str "36-50") ∧
      (∀ x : Rat, 50 < x → x ≤ 65 → ageBucket x = .str "51-65") ∧
      (∀ x : Rat, 65 < x → x ≤ 120 → ageBucket x = .str "65+") ∧
      (∀ x : Rat, x ≤ 0 ∨ 120 < x → ageBucket x = .nan) ∧
      cutAgeCell Cell.nan = Cell.nan := by
  have hagefun : ∀ c, getCol df "Age" = some c → c.dtype.isNumeric = true := by
    intro c hc
    rw [hage] at hc
    rw [← Option.some_inj.mp hc]
    exact hnum
  obtain ⟨out, hout⟩ := derive_succeeds df hdate hagefun
  have hp := derive_props df out hout
  refine ⟨out, hout, hp.2.2.2.2 ageCol hage, ?_, ?_, ?_, ?_, ?_, ?_, ?_, rfl⟩
  · intro x h0 h120
    unfold ageBucket
    split_ifs <;> first | linarith | simp
  · intro x h1 h2
    unfold ageBucket
    split_ifs <;> first | rfl | linarith
  · intro x h1 h2
    unfold ageBucket
    split_ifs <;> first | rfl | linarith
  · intro x h1 h2
    unfold ageBucket
    split_ifs <;> first | rfl | linarith
  · intro x h1 h2
    unfold ageBucket
    split_ifs <;> first | rfl | linarith
  · intro x h1 h2
    unfold ageBucket
    split_ifs <;> first | rfl | linarith
  · intro x h1
    unfold ageBucket
    rcases h1 with h | h <;> split_ifs <;> first | rfl | linarith

/-- C1 witness: the amended claim applied at a one-row table with Age 30. -/
theorem age_group_assignment_witness :
    ∃ out, create_derived_features ageThirtyDf = some out ∧
      getCol out "AGE_GROUP" = some ⟨"AGE_GROUP", .category, [Cell.str "19-35"]⟩ := by
  obtain ⟨out, h1, h2, _⟩ := age_group_assignment ageThirtyDf ⟨"Age", .int64, [.int 30]⟩
    (by decide) (by decide)
    (by intro c hc; simp [ageThirtyDf, getCol, List.find?] at hc)
  have hmap : ([Cell.int 30].map cutAgeCell) = [Cell.str "19-35"] := by decide
  rw [hmap] at h2
  exact ⟨out, h1, h2⟩

/-! # Claim C3 -/

/-- C3 counterexample: `DISTANCE = 100000` lies outside the `int16` range,
yet the cast does not fail: NumPy wraps the value silently to −31072, the
column is narrowed to `int16` (not left at its original `int64` values),
and no warning is recorded. -/
theorem overflow_wraps_silently :
    optimizeDf distOverflowDf = [⟨"DISTANCE", .int16, [.int (-31072)]⟩] ∧
    (optimize_dataframe_dtypes distOverflowDf).2 = [] ∧
    optimizeDf distOverflowDf ≠ distOverflowDf := by
  refine ⟨by decide, by decide, by decide⟩

/-- C3 (amended): for a column of the integer mapping the cast to the
mapped dtype is attempted; when the cast raises a conversion error
(missing values under an integer target, unparseable content) the column
is kept exactly as it stood after the categorical pass, one warning with
the column and target names is recorded, and the optimizer still returns.
Out-of-range numeric values are not a failure: the cast wraps them
silently (see the counterexample). -/
theorem coercion_failure_keeps_column (c : Column) (target : Dtype)
    (hmap : INTEGER_MAP.lookup c.name = some target)
    (hfail : astypeColumn (catStep c) target = none) :
    optimizeColumn c = (catStep c, [coercionWarning c.name target]) ∧
    optimize_dataframe_dtypes [c] = ([catStep c], [coercionWarning c.name target]) := by
  have hmap2 : INTEGER_MAP.lookup (catStep c).name = some target := by
    rw [catStep_name]; exact hmap
  have h1 : optimizeColumn c = (catStep c, [coercionWarning (catStep c).name target]) := by
    unfold optimizeColumn
    rw [intStep_eq_fail _ _ hmap2 hfail]
  rw [catStep_name] at h1
  refine ⟨h1, ?_⟩
  simp [optimize_dataframe_dtypes, h1]

/-- C3 witness: a `WHEELS_OFF` column holding a missing value fails the
`int16` cast, is kept, and produces the warning. -/
theorem coercion_failure_keeps_column_witness :
    optimizeColumn wheelsNanCol =
      (catStep wheelsNanCol, [coercionWarning "WHEELS_OFF" Dtype.int16]) ∧
    optimize_dataframe_dtypes [wheelsNanCol] =
      ([catStep wheelsNanCol], [coercionWarning "WHEELS_OFF" Dtype.int16]) := by
  have h := coercion_failure_keeps_column wheelsNanCol .int16 (by decide) (by decide)
  exact h

/-! # Claim C5 -/

/-- C5: on a delay column with at least one non-missing value the metrics
report counts exactly the non-missing values, computes the three
percentages over that count (missing values excluded from every
denominator), the mean over the non-missing values, min and max as true
extrema of the non-missing values, and rounds every value to 2 decimal
places; on the series `[5, 10, 20, None, 70]` it yields
`flights_with_delay_data = 4`, `on_time_pct = 50.0`,
`significantly_delayed_pct = 25.0`. -/
theorem delay_metrics_correct (df : DataFrame) (dcol : String) (c : Column)
    (delays : List Rat)
    (h1 : getCol df dcol = some c)
    (h2 : mapOpt cellNum (dropna c.values) = some delays)
    (h3 : delays ≠ []) :
    ∃ M, calculate_delay_metrics df dcol = some M ∧
      M.total_flights = rowCount df ∧
      M.flights_with_delay_data = delays.length ∧
      M.on_time_pct =
        .val (roundTo 2 ((delays.countP (fun x => decide (x ≤ 15)) : Rat) / delays.length * 100)) ∧
      M.delayed_pct =
        .val (roundTo 2 ((delays.countP (fun x => decide (15 < x)) : Rat) / delays.length * 100)) ∧
      M.significantly_delayed_pct =
        .val (roundTo 2 ((delays.countP (fun x => decide (60 < x)) : Rat) / delays.length * 100)) ∧
      M.mean_delay = .val (roundTo 2 (delays.sum / delays.length)) ∧
      (∃ m, M.min_delay = .val (roundTo 2 m) ∧ m ∈ delays ∧ ∀ y ∈ delays, m ≤ y) ∧
      (∃ m, M.max_delay = .val (roundTo 2 m) ∧ m ∈ delays ∧ ∀ y ∈ delays, y ≤ m) ∧
      (calculate_delay_metrics delayExampleDf "ARRIVAL_DELAY").map
          (fun M2 => (M2.flights_with_delay_data, M2.on_time_pct, M2.significantly_delayed_pct)) =
        some (4, PyFloat.val 50, PyFloat.val 25) := by
  cases delays with
  | nil => exact absurd rfl h3
  | cons x xs =>
    simp only [calculate_delay_metrics, h1, h2]
    refine ⟨_, rfl, rfl, rfl, ?_, ?_, ?_, ?_, ?_, ?_, by with_unfolding_all rfl⟩
    · show (pctPF ((x :: xs).countP (fun y => decide (y ≤ 15))) (x :: xs).length).round2 = _
      simp [pctPF, PyFloat.round2]
    · show (pctPF ((x :: xs).countP (fun y => decide (15 < y))) (x :: xs).length).round2 = _
      simp [pctPF, PyFloat.round2]
    · show (pctPF ((x :: xs).countP (fun y => decide (60 < y))) (x :: xs).length).round2 = _
      simp [pctPF, PyFloat.round2]
    · show (meanPF (x :: xs)).round2 = _
      simp [meanPF, PyFloat.round2]
    · exact ⟨xs.foldl min x, rfl, foldl_min_mem x xs, foldl_min_le x xs⟩
    · exact ⟨xs.foldl max x, rfl, foldl_max_mem x xs, foldl_le_max x xs⟩

/-- C5 witness: the worked example `[5, 10, 20, None, 70]`. -/
theorem delay_metrics_correct_witness :
    ∃ M, calculate_delay_metrics delayExampleDf "ARRIVAL_DELAY" = some M ∧
      M.flights_with_delay_data = 4 ∧ M.on_time_pct = .val 50 ∧
      M.significantly_delayed_pct = .val 25 := by
  obtain ⟨M, hM, _, hf, hot, _, hsig, _⟩ :=
    delay_metrics_correct delayExampleDf "ARRIVAL_DELAY"
      ⟨"ARRIVAL_DELAY", .float64, [.float 5, .float 10, .float 20, .nan, .float 70]⟩
      [5, 10, 20, 70] (by decide) (by decide) (by decide)
  refine ⟨M, hM, by simpa using hf, ?_, ?_⟩
  · rw [hot]; with_unfolding_all rfl
  · rw [hsig]; with_unfolding_all rfl

/-! # Claim C9 -/

/-- C9: the `stratify_by` parameter of `load_sample_data` has no effect —
for any file, sample size, seed, random-draw stream and row sampler, any
two values of `stratify_by` give the same result. -/
theorem stratify_by_has_no_effect (file : DataFrame) (sample_size random_state : Nat)
    (draws : Nat → Rat) (sampler : Nat → Nat → DataFrame → DataFrame)
    (s1 s2 : Option String) :
    load_sample_data file sample_size random_state draws sampler s1 =
      load_sample_data file sample_size random_state draws sampler s2 := rfl

/-! # Claim C10 -/

/-- C10 counterexample: on a delay column with no non-missing values the
function does not raise — the boolean sums are NumPy integer scalars, so
the zero-denominator divisions produce NaN (with a runtime warning)
instead of `ZeroDivisionError`, and a metrics report is returned with
`flights_with_delay_data = 0` and NaN percentages. -/
theorem all_missing_delays_returns_report :
    (calculate_delay_metrics allNanDelayDf "ARRIVAL_DELAY").isSome = true ∧
    (calculate_delay_metrics allNanDelayDf "ARRIVAL_DELAY").map
        (fun M => (M.flights_with_delay_data, M.on_time_pct, M.delayed_pct,
                   M.significantly_delayed_pct)) =
      some (0, PyFloat.nan, PyFloat.nan, PyFloat.nan) := by
  constructor <;> decide

/-- C10 (amended): with no non-missing delay values the function still
returns a report: the count of non-missing values is 0 and every
statistical field — mean, median, std, min, max and the three
percentages — is NaN. -/
theorem all_missing_delays_nan_metrics (df : DataFrame) (dcol : String) (c : Column)
    (h1 : getCol df dcol = some c) (h2 : dropna c.values = []) :
    calculate_delay_metrics df dcol =
      some { total_flights := rowCount df, flights_with_delay_data := 0,
             mean_delay := .nan, median_delay := .nan, std_delay := .nan,
             min_delay := .nan, max_delay := .nan, on_time_pct := .nan,
             delayed_pct := .nan, significantly_delayed_pct := .nan } := by
  simp only [calculate_delay_metrics, h1, h2]
  simp [mapOpt, meanPF, medianPF, stdPF, listMinPF, listMaxPF, pctPF, PyFloat.round2]

/-- C10 witness: the amended claim applied at the all-missing column. -/
theorem all_missing_delays_nan_metrics_witness :
    calculate_delay_metrics allNanDelayDf "ARRIVAL_DELAY" =
      some { total_flights := 2, flights_with_delay_data := 0,
             mean_delay := .nan, median_delay := .nan, std_delay := .nan,
             min_delay := .nan, max_delay := .nan, on_time_pct := .nan,
             delayed_pct := .nan, significantly_delayed_pct := .nan } := by
  have h := all_missing_delays_nan_metrics allNanDelayDf "ARRIVAL_DELAY"
    ⟨"ARRIVAL_DELAY", .float32, [.nan, .nan]⟩ (by decide) (by decide)
  exact h

/-! # Claim C6 -/

/-- C6 counterexample: on a one-row table the reported `mb_per_row`
(rounded to 6 decimals) differs from `total_mb / rows` computed from the
reported `total_mb` (rounded to 2 decimals): `mb_per_row` keeps digits the
2-decimal rounding of `total_mb` has discarded. -/
theorem memory_report_rounding_mismatch :
    (get_memory_usage memExampleDf).mb_per_row ≠
      PyFloat.val ((get_memory_usage memExampleDf).total_mb /
        ((get_memory_usage memExampleDf).rows : Rat)) := by
  have h1 : (get_memory_usage memExampleDf).mb_per_row = PyFloat.val (127 / 1000000) := by
    with_unfolding_all rfl
  have h2 : PyFloat.val ((get_memory_usage memExampleDf).total_mb /
      ((get_memory_usage memExampleDf).rows : Rat)) = PyFloat.val 0 := by
    with_unfolding_all rfl
  rw [h1, h2]
  intro hcon
  have h3 : (127 / 1000000 : Rat) = 0 := PyFloat.val.inj hcon
  norm_num at h3

/-- C6 (amended): for a non-empty table the report satisfies
`mb_per_row = round(raw_total_mb / rows, 6)` and
`total_mb = round(raw_total_mb, 2)` — the claimed identity holds only up
to those two roundings, with the explicit error bound
`|mb_per_row − total_mb / rows| ≤ 1/2000000 + 1/(200·rows)`. -/
theorem memory_report_relation (df : DataFrame) (h : rowCount df ≠ 0) :
    (get_memory_usage df).rows = rowCount df ∧
    (get_memory_usage df).total_mb = roundTo 2 ((totalBytes df : Rat) / 2 ^ 20) ∧
    (get_memory_usage df).mb_per_row =
      .val (roundTo 6 ((totalBytes df : Rat) / 2 ^ 20 / (rowCount df : Rat))) ∧
    (∀ q, (get_memory_usage df).mb_per_row = .val q →
      |q - (get_memory_usage df).total_mb / (rowCount df : Rat)| ≤
        1 / 2000000 + 1 / (200 * (rowCount df : Rat))) := by
  refine ⟨rfl, rfl, ?_, ?_⟩
  · simp [get_memory_usage, h]
  · intro q hq
    simp only [get_memory_usage, h, if_neg] at hq
    simp at hq
    have hn0 : (0 : Rat) < (rowCount df : Rat) := by
      have : 0 < rowCount df := Nat.pos_of_ne_zero h
      exact_mod_cast this
    have h6 := roundTo_close 6 ((totalBytes df : Rat) / 2 ^ 20 / (rowCount df : Rat))
    have h2 := roundTo_close 2 ((totalBytes df : Rat) / 2 ^ 20)
    have h6n : |q - (totalBytes df : Rat) / 2 ^ 20 / (rowCount df : Rat)| ≤ 1 / 2000000 := by
      rw [hq] at h6
      calc |q - (totalBytes df : Rat) / 2 ^ 20 / (rowCount df : Rat)|
          ≤ 1 / (2 * 10 ^ 6) := h6
        _ = 1 / 2000000 := by norm_num
    have hstep : |(totalBytes df : Rat) / 2 ^ 20 / (rowCount df : Rat) -
        roundTo 2 ((totalBytes df : Rat) / 2 ^ 20) / (rowCount df : Rat)| ≤
        1 / (200 * (rowCount df : Rat)) := by
      rw [div_sub_div_same, abs_div, abs_of_pos hn0]
      have hnum : |(totalBytes df : Rat) / 2 ^ 20 - roundTo 2 ((totalBytes df : Rat) / 2 ^ 20)| ≤
          1 / 200 := by
        rw [abs_sub_comm]
        calc |roundTo 2 ((totalBytes df : Rat) / 2 ^ 20) - (totalBytes df : Rat) / 2 ^ 20|
            ≤ 1 / (2 * 10 ^ 2) := h2
          _ = 1 / 200 := by norm_num
      calc |(totalBytes df : Rat) / 2 ^ 20 - roundTo 2 ((totalBytes df : Rat) / 2 ^ 20)| /
            (rowCount df : Rat)
          ≤ (1 / 200) / (rowCount df : Rat) := (div_le_div_iff_of_pos_right hn0).mpr hnum
        _ = 1 / (200 * (rowCount df : Rat)) := by ring
    calc |q - roundTo 2 ((totalBytes df : Rat) / 2 ^ 20) / (rowCount df : Rat)|
        ≤ |q - (totalBytes df : Rat) / 2 ^ 20 / (rowCount df : Rat)| +
          |(totalBytes df : Rat) / 2 ^ 20 / (rowCount df : Rat) -
            roundTo 2 ((totalBytes df : Rat) / 2 ^ 20) / (rowCount df : Rat)| :=
          abs_sub_le _ _ _
      _ ≤ 1 / 2000000 + 1 / (200 * (rowCount df : Rat)) := add_le_add h6n hstep

/-- C6 witness: the amended relation applied at a concrete one-row table. -/
theorem memory_report_relation_witness :
    (get_memory_usage memExampleDf).rows = rowCount memExampleDf ∧
    (get_memory_usage memExampleDf).total_mb =
      roundTo 2 ((totalBytes memExampleDf : Rat) / 2 ^ 20) ∧
    (get_memory_usage memExampleDf).mb_per_row =
      .val (roundTo 6 ((totalBytes memExampleDf : Rat) / 2 ^ 20 /
        (rowCount memExampleDf : Rat))) ∧
    (∀ q, (get_memory_usage memExampleDf).mb_per_row = .val q →
      |q - (get_memory_usage memExampleDf).total_mb / (rowCount memExampleDf : Rat)| ≤
        1 / 2000000 + 1 / (200 * (rowCount memExampleDf : Rat))) :=
  memory_report_relation memExampleDf (by decide)

/-! # Chunked-loader lemmas -/

theorem rowCount_dfTake (k : Nat) (df : DataFrame) :
    rowCount (dfTake k df) = min k (rowCount df) := by
  cases df with
  | nil => simp [dfTake, rowCount]
  | cons c cs => simp [dfTake, rowCount, List.length_take]

theorem rowCount_dfDrop (k : Nat) (df : DataFrame) :
    rowCount (dfDrop k df) = rowCount df - k := by
  cases df with
  | nil => simp [dfDrop, rowCount]
  | cons c cs => simp [dfDrop, rowCount, List.length_drop]

theorem dfTake_names (k : Nat) (df : DataFrame) :
    (dfTake k df).map Column.name = df.map Column.name := by
  unfold dfTake
  rw [List.map_map]
  exact List.map_congr_left (fun c _ => rfl)

theorem dfDrop_names (k : Nat) (df : DataFrame) :
    (dfDrop k df).map Column.name = df.map Column.name := by
  unfold dfDrop
  rw [List.map_map]
  exact List.map_congr_left (fun c _ => rfl)

theorem dfTake_colsLen (k : Nat) (df : DataFrame) (R : Nat)
    (h : ∀ c ∈ df, c.values.length = R) :
    ∀ c ∈ dfTake k df, c.values.length = min k R := by
  intro c hc
  obtain ⟨c0, hc0, heq⟩ := List.mem_map.mp hc
  rw [← heq]
  simp [List.length_take, h c0 hc0]

theorem dfDrop_colsLen (k : Nat) (df : DataFrame) (R : Nat)
    (h : ∀ c ∈ df, c.values.length = R) :
    ∀ c ∈ dfDrop k df, c.values.length = R - k := by
  intro c hc
  obtain ⟨c0, hc0, heq⟩ := List.mem_map.mp hc
  rw [← heq]
  simp [List.length_drop, h c0 hc0]

theorem dfTake_ne_nil (k : Nat) (df : DataFrame) (h : df ≠ []) : dfTake k df ≠ [] := by
  cases df with
  | nil => exact absurd rfl h
  | cons c cs => simp [dfTake]

theorem optimizeDf_ne_nil (df : DataFrame) (h : df ≠ []) : optimizeDf df ≠ [] := by
  cases df with
  | nil => exact absurd rfl h
  | cons c cs => simp [optimizeDf, optimize_dataframe_dtypes]

theorem getCol_map_nodup (df : DataFrame) (f : Column → Column)
    (hf : ∀ x, (f x).name = x.name) (hnd : (df.map Column.name).Nodup)
    (c : Column) (hc : c ∈ df) :
    getCol (df.map f) c.name = some (f c) := by
  induction df with
  | nil => simp at hc
  | cons d rest ih =>
    simp only [List.map_cons] at hnd ⊢
    rw [List.nodup_cons] at hnd
    rcases List.mem_cons.mp hc with rfl | hmem
    · unfold getCol
      rw [List.find?_cons]
      have ht : decide ((f c).name = c.name) = true := by simp [hf]
      rw [ht]
    · unfold getCol
      rw [List.find?_cons]
      have hne : decide ((f d).name = c.name) = false := by
        rw [hf]
        simp only [decide_eq_false_iff_not]
        intro he
        exact hnd.1 (he ▸ List.mem_map_of_mem Column.name hmem)
      rw [hne]
      exact ih hnd.2 hmem

theorem getCol_exists_of_mem_names (B : DataFrame) (n : String)
    (h : n ∈ B.map Column.name) : ∃ cB, getCol B n = some cB := by
  cases hfind : getCol B n with
  | some c => exact ⟨c, rfl⟩
  | none =>
    obtain ⟨c0, hc0, hn⟩ := List.mem_map.mp h
    unfold getCol at hfind
    rw [List.find?_eq_none] at hfind
    have hcontr := hfind c0 hc0
    simp [hn] at hcontr

theorem concat2_names (A B : DataFrame) :
    (concat2 A B).map Column.name = A.map Column.name := by
  unfold concat2
  rw [List.map_map]
  exact List.map_congr_left (fun c _ => rfl)

theorem concat2_ne_nil (A B : DataFrame) (h : A ≠ []) : concat2 A B ≠ [] := by
  cases A with
  | nil => exact absurd rfl h
  | cons c cs => simp [concat2]

theorem concat2_colsLen (A B : DataFrame) (rA rB : Nat)
    (hA : ∀ c ∈ A, c.values.length = rA) (hB : ∀ c ∈ B, c.values.length = rB)
    (hnames : ∀ n, n ∈ A.map Column.name → n ∈ B.map Column.name) :
    ∀ c ∈ concat2 A B, c.values.length = rA + rB := by
  intro c hc
  obtain ⟨c0, hc0, heq⟩ := List.mem_map.mp hc
  obtain ⟨cB, hcB⟩ := getCol_exists_of_mem_names B c0.name
    (hnames _ (List.mem_map_of_mem _ hc0))
  rw [← heq]
  simp only [List.length_append, hcB]
  rw [hA c0 hc0]
  simp [hB cB (getCol_mem hcB)]

theorem dfTake_dfDrop (a b : Nat) (df : DataFrame) :
    dfTake b (dfDrop a df) = df.map (fun c => ⟨c.name, c.dtype, (c.values.drop a).take b⟩) := by
  unfold dfTake dfDrop
  rw [List.map_map]
  exact List.map_congr_left (fun c _ => rfl)

theorem dfTake_dfTake (a b : Nat) (df : DataFrame) :
    dfTake a (dfTake b df) = dfTake (min a b) df := by
  unfold dfTake
  rw [List.map_map]
  exact List.map_congr_left (fun c _ => by simp [List.take_take])

theorem dfTake_min_rowCount (k : Nat) (df : DataFrame) (R : Nat)
    (h : ∀ c ∈ df, c.values.length = R) :
    dfTake k df = dfTake (min k R) df := by
  unfold dfTake
  exact List.map_congr_left (fun c hc => by
    rcases Nat.le_total k R with hle | hle
    · rw [Nat.min_eq_left hle]
    · rw [Nat.min_eq_right hle]
      rw [List.take_of_length_le (by rw [h c hc]; exact hle),
          List.take_of_length_le (by rw [h c hc])])

theorem concat2_take_drop (df : DataFrame) (hnd : (df.map Column.name).Nodup)
    (a b : Nat) :
    concat2 (dfTake a df) (dfTake b (dfDrop a df)) = dfTake (a + b) df := by
  unfold concat2
  rw [dfTake_dfDrop]
  show (dfTake a df).map _ = _
  unfold dfTake
  rw [List.map_map]
  apply List.map_congr_left
  intro c hc
  have hg : getCol (df.map (fun c => ⟨c.name, c.dtype, (c.values.drop a).take b⟩)) c.name =
      some ⟨c.name, c.dtype, (c.values.drop a).take b⟩ :=
    getCol_map_nodup df (fun c => ⟨c.name, c.dtype, (c.values.drop a).take b⟩)
      (fun x => rfl) hnd c hc
  simp only [Function.comp]
  rw [hg]
  simp only [Option.map_some', Option.getD_some]
  rw [← List.take_add]

theorem dfConcat_cons_of_ne_nil (d : DataFrame) (ds : List DataFrame) (h : ds ≠ []) :
    dfConcat (d :: ds) = concat2 d (dfConcat ds) := by
  cases ds with
  | nil => exact absurd rfl h
  | cons e es => rfl

/-- The loader's accumulation loop, on a rectangular file with distinct
labels: once the running total has passed `nv` (which `1 ≤ nv ≤ total
remaining rows` guarantees), the concatenated kept chunks are exactly a
prefix of the file of some length `m ≥ nv − total`, every column holding
`m` rows — and for the non-optimizing path literally the first `m` rows. -/
theorem accum_concat_spec (cs : Nat) (hcs : 1 ≤ cs) (nv : Int) (opt : Bool) :
    ∀ (fuel : Nat) (df : DataFrame) (total : Nat),
      (df.map Column.name).Nodup →
      (∀ c ∈ df, c.values.length = rowCount df) →
      rowCount df ≤ fuel →
      (total : Int) < nv →
      nv ≤ (total : Int) + (rowCount df : Int) →
      ∃ m : Nat, 1 ≤ m ∧ m ≤ rowCount df ∧ nv ≤ (total : Int) + (m : Int) ∧
        (dfConcat (accumChunks (some nv) opt total (readChunksAux cs fuel df))).map Column.name
          = df.map Column.name ∧
        (∀ c ∈ dfConcat (accumChunks (some nv) opt total (readChunksAux cs fuel df)),
          c.values.length = m) ∧
        dfConcat (accumChunks (some nv) opt total (readChunksAux cs fuel df)) ≠ [] ∧
        (opt = false →
          dfConcat (accumChunks (some nv) opt total (readChunksAux cs fuel df)) = dfTake m df) := by
  intro fuel
  induction fuel with
  | zero =>
    intro df total hnd hR hfuel hlt hub
    exfalso
    have h0 : rowCount df = 0 := Nat.le_zero.mp hfuel
    rw [h0] at hub
    simp at hub
    omega
  | succ fuel ih =>
    intro df total hnd hR hfuel hlt hub
    by_cases hz : rowCount df = 0
    · exfalso
      rw [hz] at hub
      simp at hub
      omega
    have hdfne : df ≠ [] := by
      cases df
      · simp [rowCount] at hz
      · simp
    have hread : readChunksAux cs (fuel + 1) df =
        dfTake cs df :: readChunksAux cs fuel (dfDrop cs df) := by
      simp [readChunksAux, hz]
    rw [hread]
    have htr : truthy (some nv) = true := by
      simp only [truthy]
      simp only [decide_eq_true_eq]
      omega
    have hrow2 : rowCount (if opt then optimizeDf (dfTake cs df) else dfTake cs df) =
        min cs (rowCount df) := by
      cases opt <;> simp [optimizeDf_rowCount, rowCount_dfTake]
    have hnames2 : (if opt then optimizeDf (dfTake cs df) else dfTake cs df).map Column.name =
        df.map Column.name := by
      cases opt <;> simp [optimizeDf_names, dfTake_names]
    have hlen2 : ∀ c ∈ (if opt then optimizeDf (dfTake cs df) else dfTake cs df),
        c.values.length = min cs (rowCount df) := by
      cases opt
      · simpa using dfTake_colsLen cs df (rowCount df) hR
      · simpa using optimizeDf_colsLen _ _ (dfTake_colsLen cs df (rowCount df) hR)
    have hne2 : (if opt then optimizeDf (dfTake cs df) else dfTake cs df) ≠ [] := by
      cases opt
      · simpa using dfTake_ne_nil cs df hdfne
      · simpa using optimizeDf_ne_nil _ (dfTake_ne_nil cs df hdfne)
    simp only [accumChunks, htr, Bool.true_and, Option.getD_some]
    rw [hrow2]
    by_cases hbr : nv ≤ ((total + min cs (rowCount df) : Nat) : Int)
    · rw [if_pos (by simpa using hbr)]
      refine ⟨min cs (rowCount df), ?_, Nat.min_le_right _ _, ?_, ?_, ?_, ?_, ?_⟩
      · exact Nat.le_min.mpr ⟨hcs, Nat.one_le_iff_ne_zero.mpr hz⟩
      · push_cast at hbr ⊢
        omega
      · exact hnames2
      · exact hlen2
      · exact hne2
      · intro hopt
        subst hopt
        show dfTake cs df = dfTake (min cs (rowCount df)) df
        exact dfTake_min_rowCount cs df (rowCount df) hR
    · rw [if_neg (by simpa using hbr)]
      have hclt : cs < rowCount df := by
        by_contra hge
        push_neg at hge
        rw [Nat.min_eq_right hge] at hbr
        push_cast at hbr hub
        omega
      have hmincs : min cs (rowCount df) = cs := Nat.min_eq_left (Nat.le_of_lt hclt)
      rw [hmincs]
      have hrowdrop : rowCount (dfDrop cs df) = rowCount df - cs := rowCount_dfDrop cs df
      have hnd' : ((dfDrop cs df).map Column.name).Nodup := by
        rw [dfDrop_names]; exact hnd
      have hR' : ∀ c ∈ dfDrop cs df, c.values.length = rowCount (dfDrop cs df) := by
        rw [hrowdrop]
        exact dfDrop_colsLen cs df (rowCount df) hR
      have hfuel' : rowCount (dfDrop cs df) ≤ fuel := by
        rw [hrowdrop]; omega
      have hlt' : ((total + cs : Nat) : Int) < nv := by
        push_cast
        push_cast at hbr
        omega
      have hub' : nv ≤ ((total + cs : Nat) : Int) + (rowCount (dfDrop cs df) : Int) := by
        rw [hrowdrop]
        push_cast [Nat.sub_add_cancel (Nat.le_of_lt hclt), Int.ofNat_sub (Nat.le_of_lt hclt)]
        omega
      obtain ⟨m', hm1', hm2', hm3', hnames', hlen', hne', heq'⟩ :=
        ih (dfDrop cs df) (total + cs) hnd' hR' hfuel' hlt' hub'
      have hkept' : accumChunks (some nv) opt (total + cs)
          (readChunksAux cs fuel (dfDrop cs df)) ≠ [] := by
        intro hcon
        rw [hcon] at hne'
        exact hne' rfl
      rw [dfConcat_cons_of_ne_nil _ _ hkept']
      refine ⟨cs + m', ?_, ?_, ?_, ?_, ?_, ?_, ?_⟩
      · omega
      · rw [hrowdrop] at hm2'
        omega
      · push_cast
        push_cast at hm3'
        omega
      · rw [concat2_names, hnames2]
      · apply concat2_colsLen _ _ cs m' (fun c hc => hmincs ▸ hlen2 c hc) hlen'
        intro nm hnm
        rw [hnames']
        rw [dfDrop_names]
        rw [hnames2] at hnm
        exact hnm
      · exact concat2_ne_nil _ _ hne2
      · intro hopt
        subst hopt
        show concat2 (dfTake cs df) _ = _
        rw [heq' rfl]
        exact concat2_take_drop df hnd cs m'

/-! # Claim C4 -/

/-- C4 counterexample: `max_rows = 0` satisfies `max_rows < R` (here
`R = 5`), but Python's `if nrows:` treats 0 as false, so the loader reads
and returns the whole file — 5 rows instead of 0. -/
theorem max_rows_zero_loads_all :
    load_data_chunked fiveRowFile 2 (some 0) false = fiveRowFile ∧
    rowCount (load_data_chunked fiveRowFile 2 (some 0) false) = 5 := by
  constructor
  · with_unfolding_all rfl
  · with_unfolding_all rfl

/-- C4 (amended): for every rectangular file of `R` rows with distinct
labels, every chunk size ≥ 1 and every `max_rows` with `1 ≤ max_rows < R`,
the loader stops once the cumulative row count reaches `max_rows` and
returns exactly `max_rows` rows; without per-chunk dtype optimization the
result is literally the first `max_rows` rows of the file in original
order, and with optimization the row count is still exactly `max_rows`. -/
theorem load_chunked_truncates (file : DataFrame) (cs : Nat) (n : Int)
    (hwf : WF file) (hcs : 1 ≤ cs) (hn1 : 1 ≤ n) (hnR : n < (rowCount file : Int)) :
    load_data_chunked file cs (some n) false = dfTake n.toNat file ∧
    ∀ opt, rowCount (load_data_chunked file cs (some n) opt) = n.toNat := by
  have htr : truthy (some n) = true := by
    simp only [truthy, decide_eq_true_eq]
    omega
  have key : ∀ opt, ∃ m : Nat, 1 ≤ m ∧ m ≤ rowCount file ∧
      n ≤ ((0 : Nat) : Int) + (m : Int) ∧
      (dfConcat (accumChunks (some n) opt 0 (readChunksAux cs (rowCount file) file))).map
        Column.name = file.map Column.name ∧
      (∀ c ∈ dfConcat (accumChunks (some n) opt 0 (readChunksAux cs (rowCount file) file)),
        c.values.length = m) ∧
      dfConcat (accumChunks (some n) opt 0 (readChunksAux cs (rowCount file) file)) ≠ [] ∧
      (opt = false →
        dfConcat (accumChunks (some n) opt 0 (readChunksAux cs (rowCount file) file)) =
          dfTake m file) := by
    intro opt
    exact accum_concat_spec cs hcs n opt (rowCount file) file 0 hwf.2 hwf.1 (le_refl _)
      (by push_cast; omega) (by push_cast; omega)
  constructor
  · obtain ⟨m, hm1, hm2, hm3, _, _, _, heq⟩ := key false
    have hnm : n.toNat ≤ m := by
      rw [Int.toNat_le]
      push_cast at hm3
      omega
    simp only [load_data_chunked, readChunks, htr, if_true, Option.getD_some]
    rw [heq rfl]
    unfold dfHead
    rw [if_pos (by omega : (0 : Int) ≤ n)]
    rw [dfTake_dfTake, Nat.min_eq_left hnm]
  · intro opt
    obtain ⟨m, hm1, hm2, hm3, hnames, hlen, hne, _⟩ := key opt
    have hnm : n.toNat ≤ m := by
      rw [Int.toNat_le]
      push_cast at hm3
      omega
    have hrowD : rowCount (dfConcat (accumChunks (some n) opt 0
        (readChunksAux cs (rowCount file) file))) = m := by
      rcases hD : dfConcat (accumChunks (some n) opt 0
          (readChunksAux cs (rowCount file) file)) with _ | ⟨c, csx⟩
      · exact absurd hD hne
      · show c.values.length = m
        exact hlen c (hD ▸ List.mem_cons_self c csx)
    simp only [load_data_chunked, readChunks, htr, if_true, Option.getD_some]
    unfold dfHead
    rw [if_pos (by omega : (0 : Int) ≤ n)]
    rw [rowCount_dfTake, hrowD, Nat.min_eq_left hnm]

/-- C4 witness: the amended claim at the five-row file with
`chunksize = 2` and `max_rows = 3`. -/
theorem load_chunked_truncates_witness :
    load_data_chunked fiveRowFile 2 (some 3) false = dfTake (3 : Int).toNat fiveRowFile ∧
    ∀ opt, rowCount (load_data_chunked fiveRowFile 2 (some 3) opt) = (3 : Int).toNat :=
  load_chunked_truncates fiveRowFile 2 3 ⟨by decide, by decide⟩ (by decide) (by decide)
    (by decide)

end AirFly
